import Mathlib

/-!
Shallow embedding of `apklab-gradio-app.py`: a Gradio front end that
orchestrates external Android reverse-engineering tools (apktool, JADX,
uber-apk-signer, quark) via subprocess calls, plus in-process helpers
(MITM manifest patch, zip packaging, URL download).

External tool invocations are modelled by an oracle
`run : List String → Bool × String × String` mirroring
`APKProcessor._run_command` (success flag, stdout, stderr).  Filesystem
side effects of the two pipelines are recorded as an explicit event
trace.  The in-process helpers (`mitm_patch`, `create_zip`,
`download_apk`) are modelled directly over explicit data
(an association-list filesystem, a directory tree, an HTTP response).
-/

namespace Apklab

/-! ## Path helpers (mirroring `pathlib.Path.stem` and `str.split`) -/

/-- Python `str.split(sep)` for a one-character separator: always returns
a non-empty list, with empty pieces kept. -/
def splitOnChar (sep : Char) : List Char → List (List Char)
  | [] => [[]]
  | c :: t =>
    let r := splitOnChar sep t
    if c = sep then [] :: r
    else
      match r with
      | [] => [[c]]
      | h :: t2 => (c :: h) :: t2

/-- Last `/`-separated component of a path, like `Path(p).name` /
`url.split("/")[-1]`. -/
def lastComponent (s : String) : String :=
  String.mk ((splitOnChar '/' s.data).getLastD s.data)

/-- Index of the last `.` in a list of characters, if any. -/
def rfindDot (cs : List Char) : Option Nat :=
  match cs.reverse.findIdx? (fun c => c == '.') with
  | none => none
  | some j => some (cs.length - 1 - j)

/-- `pathlib.Path(s).stem`: the final component without its last suffix.
A suffix is only stripped when the last dot is neither the first nor the
last character of the name. -/
def stem (s : String) : String :=
  let n := lastComponent s
  let cs := n.data
  match rfindDot cs with
  | none => n
  | some i => if 0 < i ∧ i + 1 < cs.length then String.mk (cs.take i) else n

/-! ## Substring containment and replacement on `List Char`
(mirroring Python `in` and `str.replace`) -/

/-- Python `pat in s` on strings: substring containment. -/
def containsSub (pat : List Char) : List Char → Bool
  | [] => pat.isEmpty
  | c :: t => pat.isPrefixOf (c :: t) || containsSub pat t

/-- Python `s.replace(pat, rep)`: replace every non-overlapping,
leftmost-first occurrence of `pat` by `rep`. -/
def replaceAll (pat rep : List Char) : List Char → List Char
  | [] => []
  | c :: t =>
    if h : pat ≠ [] ∧ pat.isPrefixOf (c :: t) then
      rep ++ replaceAll pat rep ((c :: t).drop pat.length)
    else
      c :: replaceAll pat rep t
termination_by s => s.length
decreasing_by
  all_goals simp only [List.length_drop, List.length_cons]
  all_goals try have hp : pat.length ≠ 0 := fun hz => h.1 (List.eq_nil_of_length_eq_zero hz)
  all_goals omega

/-! ## Association lists (used for filesystem state and archive stores) -/

/-- Overwrite-or-append update of an association list. -/
def assocWrite {κ ν : Type} [DecidableEq κ] (k : κ) (v : ν) :
    List (κ × ν) → List (κ × ν)
  | [] => [(k, v)]
  | e :: rest => if e.1 = k then (k, v) :: rest else e :: assocWrite k v rest

/-- First-match lookup in an association list. -/
def assocRead {κ ν : Type} [DecidableEq κ] (k : κ) : List (κ × ν) → Option ν
  | [] => none
  | e :: rest => if e.1 = k then some e.2 else assocRead k rest

/-- `os.makedirs(d, exist_ok=True)` for a single directory entry. -/
def insertDir (d : String) (ds : List String) : List String :=
  if d ∈ ds then ds else ds ++ [d]

/-- Project directory state seen by the Patch Stage: the set of created
directories and the text files, keyed by project-relative path. -/
structure PFS where
  dirs : List String
  files : List (String × List Char)
deriving DecidableEq

/-! ## Patch Stage: `APKProcessor.mitm_patch` -/

/-- The fixed permissive network-security configuration written by
`mitm_patch` (`config_content` in the source). -/
def config_content : List Char :=
  ("<?xml version=\"1.0\" encoding=\"utf-8\"?>\n<network-security-config>\n    <base-config cleartextTrafficPermitted=\"true\">\n        <trust-anchors>\n            <certificates src=\"system\" />\n            <certificates src=\"user\" />\n        </trust-anchors>\n    </base-config>\n</network-security-config>\n").data

/-- The substring whose presence makes the manifest edit a no-op. -/
def nscAttr : List Char := "android:networkSecurityConfig".data

/-- The search pattern of the manifest text replacement. -/
def appTag : List Char := "<application".data

/-- The replacement text of the manifest text replacement. -/
def appTagPatched : List Char :=
  ("<application android:networkSecurityConfig=\"@xml/network_security_config\"").data

/-- Project-relative path of the written config file. -/
def nscPath : String := "res/xml/network_security_config.xml"

/-- Project-relative path of the manifest. -/
def manifestPath : String := "AndroidManifest.xml"

/-- The conditional textual edit `mitm_patch` applies to the manifest
content: a replacement of every `<application` occurrence, skipped when
the attribute substring is already present. -/
def patchManifestContent (c : List Char) : List Char :=
  if containsSub nscAttr c then c else replaceAll appTag appTagPatched c

/-- `APKProcessor.mitm_patch(project_dir)`: create `res/xml`, write the
fixed config file, then (if the manifest exists) apply the conditional
textual edit to it and report success; report failure when the manifest
is absent.  Returns the new project state and the `(ok, stdout-message,
stderr-message)` triple the source returns. -/
def mitm_patch (fs : PFS) : PFS × (Bool × String × String) :=
  let dirs1 := insertDir "res/xml" (insertDir "res" fs.dirs)
  let files1 := assocWrite nscPath config_content fs.files
  match assocRead manifestPath files1 with
  | some content =>
    let files2 :=
      if containsSub nscAttr content then files1
      else assocWrite manifestPath (replaceAll appTag appTagPatched content) files1
    (⟨dirs1, files2⟩,
      (true,
       "MITM patch applied to AndroidManifest.xml and network_security_config.xml created.",
       ""))
  | none => (⟨dirs1, files1⟩, (false, "AndroidManifest.xml not found.", ""))

/-! ## Packaging: `APKProcessor.create_zip` and `ZipFile.extractall` -/

mutual
/-- A node of a directory tree: a regular file with byte contents, or a
sub-directory. -/
inductive FsNode where
  | file (name : String) (content : List Nat)
  | dir (name : String) (children : FsList)
/-- A directory listing. -/
inductive FsList where
  | nil
  | cons (hd : FsNode) (tl : FsList)
end

mutual
/-- Archive entries contributed by one node during the `os.walk` of
`create_zip`: every file below it, keyed by relative path. -/
def nodeEntries : FsNode → List (List String × List Nat)
  | .file n c => [([n], c)]
  | .dir n cs => (listEntries cs).map (fun e => (n :: e.1, e.2))
/-- Archive entries of a whole directory listing. -/
def listEntries : FsList → List (List String × List Nat)
  | .nil => []
  | .cons h t => nodeEntries h ++ listEntries t
end

/-- `APKProcessor.create_zip(source_dir, zip_path)`: the archive holds
every file under the root at its path relative to the root
(`os.path.relpath`), with its contents. -/
def create_zip (root : FsList) : List (List String × List Nat) :=
  listEntries root

mutual
/-- File content found at a relative path below one node. -/
def nodeLookup : FsNode → List String → Option (List Nat)
  | .file n c, [m] => if m = n then some c else none
  | .file _ _, _ => none
  | .dir n cs, m :: p :: ps => if m = n then listLookup cs (p :: ps) else none
  | .dir _ _, _ => none
/-- File content found at a relative path in a directory listing. -/
def listLookup : FsList → List String → Option (List Nat)
  | .nil, _ => none
  | .cons h t, p =>
    match nodeLookup h p with
    | some v => some v
    | none => listLookup t p
end

/-- Name of a node. -/
def nodeName : FsNode → String
  | .file n _ => n
  | .dir n _ => n

/-- Names of the nodes of a listing. -/
def listNames : FsList → List String
  | .nil => []
  | .cons h t => nodeName h :: listNames t

mutual
/-- Well-formedness of a node: sibling names are distinct everywhere
below it (true of any real directory tree). -/
def nodeWf : FsNode → Bool
  | .file _ _ => true
  | .dir _ cs => listWf cs
/-- Well-formedness of a directory listing. -/
def listWf : FsList → Bool
  | .nil => true
  | .cons h t => !(listNames t).contains (nodeName h) && nodeWf h && listWf t
end

/-- `ZipFile.extractall`: write every archive entry under the
destination directory, in order. -/
def extractAllEntries : List (List String × List Nat) →
    List (List String × List Nat) → List (List String × List Nat)
  | [], m => m
  | e :: es, m => extractAllEntries es (assocWrite e.1 e.2 m)

/-! ## Subprocess oracle, configuration and event traces -/

/-- Result of `APKProcessor._run_command`: success flag (exit code 0),
captured stdout, captured stderr. -/
abbrev RunResult := Bool × String × String

/-- `APKTOOL_PATH`. -/
def APKTOOL_PATH : String := "tools/apktool.jar"

/-- `SIGNER_PATH`. -/
def SIGNER_PATH : String := "tools/uber-apk-signer.jar"

/-- `JADX_PATH`. -/
def JADX_PATH : String := "tools/jadx/bin/jadx"

/-- `TEMP_DIR`. -/
def TEMP_DIR : String := "temp"

/-- `DOWNLOADS_DIR`. -/
def DOWNLOADS_DIR : String := "downloads"

/-- Filesystem / external-process effects a pipeline run performs, in
order. -/
inductive Event where
  | runTool (cmd : List String)
  | makedirs (dir : String)
  | rmtree (dir : String)
  | createZip (sourceDir zipPath : String)
  | extractZip (zipPath destDir : String)
  | moveFile (src dest : String)
  | downloadUrl (url : String)
  | mitmPatch (dir : String)
deriving DecidableEq

/-- Environment a pipeline run executes in: the subprocess oracle, tool
presence, the download outcome per URL, the random `uuid4` suffixes
drawn by this run, and the decoded project contents the Patch Stage
acts on. -/
structure Env where
  run : List String → RunResult
  apktoolExists : Bool
  signerExists : Bool
  jadxExists : Bool
  download : String → Except String String
  uuid1 : String
  uuid2 : String
  decodedFS : PFS

/-- `APKProcessor.check_tools`: verify Java (by invoking it) and the
presence of the three tool files.  Returns success, the composite
log/diagnostic, and the invocations performed. -/
def check_tools (env : Env) : Bool × String × List Event :=
  let r := env.run ["java", "--version"]
  let evs := [Event.runTool ["java", "--version"]]
  if !r.1 then
    (false, "Java (JDK) not found. Please install it and make sure it's in your PATH.", evs)
  else if !env.apktoolExists then
    (false, "apktool.jar not found at " ++ APKTOOL_PATH, evs)
  else if !env.signerExists then
    (false, "uber-apk-signer.jar not found at " ++ SIGNER_PATH, evs)
  else if !env.jadxExists then
    (false, "JADX not found at " ++ JADX_PATH, evs)
  else
    (true,
     "Java Version:\n" ++ r.2.1 ++ r.2.2 ++
       "\napktool.jar found.\nuber-apk-signer.jar found.\nJADX found.",
     evs)

/-- Command line of `APKProcessor.apktool_decode`. -/
def apktool_decode_cmd (apk_path output_dir : String) (options : List String) :
    List String :=
  ["java", "-jar", APKTOOL_PATH, "d", apk_path, "-o", output_dir, "-f"] ++ options

/-- Command line of `APKProcessor.jadx_decompile`. -/
def jadx_decompile_cmd (apk_path output_dir : String) (options : List String) :
    List String :=
  [JADX_PATH, "-r", "-q", "-ds", output_dir ++ "/java_sources"] ++ options ++ [apk_path]

/-- Command line of `APKProcessor.quark_analyze`. -/
def quark_analyze_cmd (apk_path output_dir : String) : List String :=
  ["quark", "analyze", "-a", apk_path, "-o", output_dir ++ "/quark-report.json"]

/-- Command line of `APKProcessor.apktool_build`. -/
def apktool_build_cmd (project_dir output_apk : String) (options : List String) :
    List String :=
  ["java", "-jar", APKTOOL_PATH, "b", project_dir, "-o", output_apk] ++ options

/-- Command line of `APKProcessor.sign_apk`. -/
def sign_apk_cmd (apk_path keystore_path ks_pass ks_alias key_pass : String) :
    List String :=
  ["java", "-jar", SIGNER_PATH, "--apks", apk_path, "--ks", keystore_path,
   "--ksPass", ks_pass, "--ksAlias", ks_alias, "--keyPass", key_pass]

/-- The checkbox-token → apktool flag table of `process_apk` step 4. -/
def parse_apktool_opts (decode_options : List String) : List String :=
  (if decode_options.contains "no_src" then ["-s"] else []) ++
  (if decode_options.contains "no_res" then ["-r"] else []) ++
  (if decode_options.contains "force_manifest" then ["--force-manifest"] else []) ++
  (if decode_options.contains "no_assets" then ["--no-assets"] else []) ++
  (if decode_options.contains "only_main_classes" then ["--only-main-classes"] else []) ++
  (if decode_options.contains "no_debug_info" then ["-b"] else [])

/-- The checkbox-token → JADX flag table of `process_apk` step 4. -/
def parse_jadx_opts (decode_options : List String) : List String :=
  (if decode_options.contains "deobf" then ["--deobf"] else []) ++
  (if decode_options.contains "show_bad_code" then ["--show-bad-code"] else [])

/-- Observable outcome of a pipeline run: status line, download
reference (`none` ↔ download button hidden), log lines, event trace. -/
structure RunOut where
  status : String
  download : Option String
  logs : List String
  events : List Event
deriving DecidableEq

/-- Step 6 of `process_apk`: the optional MITM Patch stage.  Its result
is appended to the log; control continues regardless. -/
def mitm_stage (env : Env) (project_dir : String) (decode_options : List String)
    (st : List String × List Event) : List String × List Event :=
  if decode_options.contains "mitm_patch" then
    let pr := mitm_patch env.decodedFS
    (st.1 ++ ["\n--- MITM Patch ---", pr.2.2.1, pr.2.2.2],
     st.2 ++ [Event.mitmPatch project_dir])
  else st

/-- Step 7 of `process_apk`: the optional Quark analysis stage.  A
failure only appends a log line (non-fatal). -/
def quark_stage (env : Env) (apk_path project_dir : String)
    (decode_options : List String) (st : List String × List Event) :
    List String × List Event :=
  if decode_options.contains "quark_analysis" then
    let rq := env.run (quark_analyze_cmd apk_path project_dir)
    let lq := st.1 ++ ["\n--- Quark Engine Analysis ---",
      "Quark STDOUT:\n" ++ rq.2.1, "Quark STDERR:\n" ++ rq.2.2]
    ((if !rq.1 then lq ++ ["Quark analysis failed."] else lq),
     st.2 ++ [Event.runTool (quark_analyze_cmd apk_path project_dir)])
  else st

/-- Step 8 of `process_apk`: the optional JADX decompilation stage.  A
failure only appends a log line (non-fatal). -/
def jadx_stage (env : Env) (apk_path project_dir : String)
    (decode_options : List String) (st : List String × List Event) :
    List String × List Event :=
  if decode_options.contains "decompile_java" then
    let jopts := parse_jadx_opts decode_options
    let rj := env.run (jadx_decompile_cmd apk_path project_dir jopts)
    let lj := st.1 ++
      ["\n--- JADX Decompilation ---\nRunning with options: " ++
        String.intercalate " " jopts,
       "JADX STDOUT:\n" ++ rj.2.1, "JADX STDERR:\n" ++ rj.2.2]
    ((if !rj.1 then lj ++ ["JADX decompilation failed."] else lj),
     st.2 ++ [Event.runTool (jadx_decompile_cmd apk_path project_dir jopts)])
  else st

/-- The uniquely-named working project directory of a decode run
(`TEMP_DIR / f"{project_name}-decompiled-{uuid.uuid4().hex[:8]}"`). -/
def project_dir_of (env : Env) (apk_path : String) : String :=
  TEMP_DIR ++ "/" ++ stem apk_path ++ "-decompiled-" ++ env.uuid1

/-- The apktool decode command of a decode run. -/
def decode_cmd_of (env : Env) (apk_path : String) (decode_options : List String) :
    List String :=
  apktool_decode_cmd apk_path (project_dir_of env apk_path)
    (parse_apktool_opts decode_options)

/-- The archive path a decode run publishes. -/
def zip_path_of (apk_path : String) : String :=
  DOWNLOADS_DIR ++ "/" ++ stem apk_path ++ "-decompiled.zip"

/-- Steps 3–10 of `process_apk`, once the APK path is known: create the
uniquely-named project directory, run the required apktool decode
(fatal on failure), then the optional stages, then package the project
directory and delete it. -/
def decode_phase (env : Env) (apk_path : String) (decode_options : List String)
    (logs0 : List String) (evs0 : List Event) : RunOut :=
  let project_dir := project_dir_of env apk_path
  let evs1 := evs0 ++ [Event.makedirs project_dir]
  let logs1 := logs0 ++ ["Created project directory: " ++ project_dir]
  let dcmd := decode_cmd_of env apk_path decode_options
  let rd := env.run dcmd
  let evs2 := evs1 ++ [Event.runTool dcmd]
  let logs2 := logs1 ++
    ["\n--- Apktool Decompilation ---\nRunning with options: " ++
      String.intercalate " " (parse_apktool_opts decode_options),
     "Apktool STDOUT:\n" ++ rd.2.1, "Apktool STDERR:\n" ++ rd.2.2]
  if !rd.1 then
    ⟨"Apktool failed.", none, logs2, evs2⟩
  else
    let st := jadx_stage env apk_path project_dir decode_options
      (quark_stage env apk_path project_dir decode_options
        (mitm_stage env project_dir decode_options (logs2, evs2)))
    let zip_path := zip_path_of apk_path
    ⟨"Success! Project decompiled and zipped.",
     some zip_path,
     st.1 ++ ["\nProject zipped to " ++ zip_path],
     st.2 ++ [Event.createZip project_dir zip_path, Event.rmtree project_dir]⟩

/-- `process_apk(apk_file, apk_url, decode_options)`: the decode
pipeline.  `Except.error` models a raised `gr.Error`. -/
def process_apk (env : Env) (apk_file : Option String) (apk_url : String)
    (decode_options : List String) : Except String RunOut :=
  let tc := check_tools env
  let logs0 := ["--- Tool Check ---\n" ++ tc.2.1]
  if !tc.1 then
    .ok ⟨"Error: Tools are not configured correctly.", none, logs0, tc.2.2⟩
  else if apk_file = none ∧ apk_url = "" then
    .error "Please upload an APK file or provide a URL."
  else
    match apk_file with
    | some f =>
      .ok (decode_phase env f decode_options
        (logs0 ++ ["Processing uploaded file: " ++ f]) tc.2.2)
    | none =>
      let logs1 := logs0 ++ ["Downloading APK from URL: " ++ apk_url]
      let evs1 := tc.2.2 ++ [Event.downloadUrl apk_url]
      match env.download apk_url with
      | .error e => .ok ⟨"Error downloading APK: " ++ e, none, logs1, evs1⟩
      | .ok p =>
        .ok (decode_phase env p decode_options
          (logs1 ++ ["APK downloaded to: " ++ p]) evs1)

/-- The uniquely-named unpack directory of a rebuild run. -/
def rebuild_project_dir (env : Env) : String :=
  TEMP_DIR ++ "/rebuild-" ++ env.uuid1

/-- The uniquely-named output directory of a rebuild run. -/
def rebuild_output_dir (env : Env) : String :=
  TEMP_DIR ++ "/rebuild-out-" ++ env.uuid2

/-- The unsigned APK path a rebuild run asks apktool to produce. -/
def unsigned_apk_of (env : Env) : String :=
  rebuild_output_dir env ++ "/rebuilt-unsigned.apk"

/-- The checkbox-token → apktool build flag table of
`rebuild_and_sign_apk` step 3. -/
def parse_build_opts (build_options : List String) : List String :=
  (if build_options.contains "no_crunch" then ["--no-crunch"] else []) ++
  (if build_options.contains "use_aapt2" then ["--use-aapt2"] else [])

/-- The apktool build command of a rebuild run. -/
def build_cmd_of (env : Env) (build_options : List String) : List String :=
  apktool_build_cmd (rebuild_project_dir env) (unsigned_apk_of env)
    (parse_build_opts build_options)

/-- The signer command of a rebuild run. -/
def sign_cmd_of (env : Env) (ks ks_pass ks_alias key_pass : String) : List String :=
  sign_apk_cmd (unsigned_apk_of env) ks ks_pass ks_alias key_pass

/-- The path the signer writes, per its fixed naming convention: the
unsigned file's stem with `-aligned-signed.apk` appended. -/
def signed_apk_of (env : Env) : String :=
  rebuild_output_dir env ++ "/" ++ stem (unsigned_apk_of env) ++ "-aligned-signed.apk"

/-- The stable download path of the final signed APK, derived from the
uploaded archive's stem. -/
def final_apk_of (pz : String) : String :=
  DOWNLOADS_DIR ++ "/" ++ stem pz ++ "-signed.apk"

/-- `rebuild_and_sign_apk(project_zip, build_options, keystore_file,
ks_pass, alias, key_pass)`: the rebuild pipeline.  `Except.error`
models a raised `gr.Error`; credential validation happens before any
directory is created or any tool invoked. -/
def rebuild_and_sign_apk (env : Env) (project_zip : Option String)
    (build_options : List String) (keystore_file : Option String)
    (ks_pass ks_alias key_pass : String) : Except String RunOut :=
  match project_zip with
  | none => .error "Please upload a project ZIP file."
  | some pz =>
    match keystore_file with
    | none => .error "Please upload a keystore file."
    | some ks =>
      if ks_pass = "" ∨ ks_alias = "" ∨ key_pass = "" then
        .error "Please provide all keystore credentials."
      else
        let project_dir := rebuild_project_dir env
        let output_dir := rebuild_output_dir env
        let evs1 := [Event.makedirs project_dir, Event.makedirs output_dir,
                     Event.extractZip pz project_dir]
        let logs1 := ["Project unzipped to " ++ project_dir]
        let bcmd := build_cmd_of env build_options
        let rb := env.run bcmd
        let evs2 := evs1 ++ [Event.runTool bcmd]
        let logs2 := logs1 ++
          ["\n--- Apktool Rebuild ---\nRunning with options: " ++
            String.intercalate " " (parse_build_opts build_options),
           "Apktool STDOUT:\n" ++ rb.2.1, "Apktool STDERR:\n" ++ rb.2.2]
        if !rb.1 then
          .ok ⟨"Apktool rebuild failed.", none, logs2,
               evs2 ++ [Event.rmtree project_dir, Event.rmtree output_dir]⟩
        else
          let scmd := sign_cmd_of env ks ks_pass ks_alias key_pass
          let rs := env.run scmd
          let evs3 := evs2 ++ [Event.runTool scmd]
          let logs3 := logs2 ++ ["\n--- Signing APK ---",
            "Signer STDOUT:\n" ++ rs.2.1, "Signer STDERR:\n" ++ rs.2.2]
          if !rs.1 then
            .ok ⟨"Signing failed.", none, logs3,
                 evs3 ++ [Event.rmtree project_dir, Event.rmtree output_dir]⟩
          else
            let signed := signed_apk_of env
            let final := final_apk_of pz
            .ok ⟨"Success! APK rebuilt and signed.",
                 some final,
                 logs3,
                 evs3 ++ [Event.moveFile signed final,
                          Event.rmtree project_dir, Event.rmtree output_dir]⟩

/-! ## Acquisition Stage: `APKProcessor.download_apk` -/

/-- A Python exception surfaced by the download model. -/
inductive PyErr where
  | zeroDivision
  | requestFailed (url : String)
deriving DecidableEq

/-- HTTP response as seen by `download_apk`: whether `raise_for_status`
passes, the `content-length` header if present, and the sizes of the
body chunks yielded by `iter_content`. -/
structure HttpResponse where
  ok : Bool
  contentLength : Option Nat
  chunks : List Nat
deriving DecidableEq

/-- The chunk loop of `download_apk`: write each chunk, add its length,
then report progress as `bytes_downloaded / total_size` — a Python
division that raises `ZeroDivisionError` when `total_size` is `0`. -/
def downloadLoop (total : Nat) : Nat → List Nat → Except PyErr Nat
  | bytes, [] => .ok bytes
  | bytes, c :: cs =>
    let b := bytes + c
    if total = 0 then .error .zeroDivision else downloadLoop total b cs

/-- `APKProcessor.download_apk(url, progress)`: derive the local file
name from the URL, stream the body in chunks while reporting progress,
and return the local path. -/
def download_apk (url : String) (resp : HttpResponse) : Except PyErr String :=
  let last := lastComponent url
  let apk_name := if (".apk".data).isSuffixOf last.data then last else "downloaded.apk"
  let apk_path := TEMP_DIR ++ "/" ++ apk_name
  if !resp.ok then .error (.requestFailed url)
  else
    let total_size := resp.contentLength.getD 0
    match downloadLoop total_size 0 resp.chunks with
    | .error e => .error e
    | .ok _ => .ok apk_path

/-! ## Concrete data used in witnesses and counterexamples -/

/-- A small manifest mentioning `<application`. -/
def exManifest : List Char :=
  "<manifest><application></application></manifest>".data

/-- A minimal decoded project containing a manifest. -/
def exFS : PFS := ⟨[], [("AndroidManifest.xml", exManifest)]⟩

/-- A project state with no manifest file. -/
def exFSnoManifest : PFS := ⟨["res"], [("res/values/strings.xml", "<resources/>".data)]⟩

/-- An environment whose subprocess oracle succeeds only on the Java
version probe, so the apktool decode invocation fails. -/
def envDecodeFail : Env :=
  ⟨fun cmd => (cmd == ["java", "--version"], "apk-out", "apk-err"),
   true, true, true, fun _ => Except.error "no network", "u1", "u2", exFS⟩

/-- An environment whose subprocess oracle always succeeds. -/
def envAllOk : Env :=
  ⟨fun _ => (true, "ok-out", "ok-err"),
   true, true, true, fun _ => Except.ok "temp/downloaded.apk", "u1", "u2", exFS⟩

/-- A second all-succeeding environment whose run drew different random
suffixes. -/
def envAllOk2 : Env :=
  ⟨fun _ => (true, "ok-out", "ok-err"),
   true, true, true, fun _ => Except.ok "temp/downloaded.apk", "w1", "w2", exFS⟩

/-- An environment where every tool succeeds except the quark
static-analysis invocation (its command starts with `"quark"`). -/
def envQuarkFail : Env :=
  ⟨fun cmd => (cmd.head? != some "quark", "q-out", "q-err"),
   true, true, true, fun _ => Except.ok "temp/downloaded.apk", "u1", "u2", exFS⟩

/-- A small well-formed directory tree: a manifest file and a `res`
sub-directory with one file. -/
def exTree : FsList :=
  .cons (.file "AndroidManifest.xml" [1, 2])
    (.cons (.dir "res" (.cons (.file "strings.xml" [3, 4]) .nil)) .nil)

/-- A successful HTTP response that carries no content-length header and
a one-chunk body. -/
def exResponseNoLength : HttpResponse := ⟨true, none, [8192]⟩

/-- The same download with the content-length header present. -/
def exResponseWithLength : HttpResponse := ⟨true, some 8192, [8192]⟩

/-! ## Helper lemmas: substring search and replacement -/

theorem containsSub_iff (pat s : List Char) :
    containsSub pat s = true ↔ pat <:+: s := by
  induction s with
  | nil =>
    simp [containsSub, List.isEmpty_iff]
  | cons c t ih =>
    simp only [containsSub, Bool.or_eq_true, List.isPrefixOf_iff_prefix, ih]
    constructor
    · rintro (h | h)
      · exact h.isInfix
      · exact h.trans (List.suffix_cons c t).isInfix
    · intro h
      rcases List.infix_cons_iff.mp h with h | h
      · exact Or.inl h
      · exact Or.inr h

/-- If the pattern never occurs, Python `replace` returns the string
unchanged. -/
theorem replaceAll_no_occurrence (pat rep s : List Char) :
    ¬ pat <:+: s → replaceAll pat rep s = s := by
  induction s using replaceAll.induct pat rep with
  | case1 => intro _; simp [replaceAll]
  | case2 c t hpre ih =>
    intro h
    exact absurd (List.isPrefixOf_iff_prefix.mp hpre.2).isInfix h
  | case3 c t hpre ih =>
    intro h
    simp only [replaceAll]
    rw [dif_neg hpre]
    have ht : ¬ pat <:+: t := fun hi => h (List.infix_cons_iff.mpr (Or.inr hi))
    rw [ih ht]

/-- If the pattern occurs at least once, the replacement text occurs in
the output of Python `replace`. -/
theorem replaceAll_contains_rep (pat rep s : List Char) (hpat : pat ≠ []) :
    pat <:+: s → rep <:+: replaceAll pat rep s := by
  induction s using replaceAll.induct pat rep with
  | case1 =>
    intro h
    exact absurd (List.eq_nil_of_infix_nil h) hpat
  | case2 c t hpre ih =>
    intro _
    simp only [replaceAll]
    rw [dif_pos hpre]
    exact (List.prefix_append rep _).isInfix
  | case3 c t hpre ih =>
    intro h
    simp only [replaceAll]
    rw [dif_neg hpre]
    have ht : pat <:+: t := by
      rcases List.infix_cons_iff.mp h with hp | hi
      · exact absurd ⟨hpat, List.isPrefixOf_iff_prefix.mpr hp⟩ hpre
      · exact hi
    exact List.infix_cons_iff.mpr (Or.inr (ih ht))

/-! ## Helper lemmas: association lists -/

theorem assocRead_write_self {κ ν : Type} [DecidableEq κ] (k : κ) (v : ν)
    (l : List (κ × ν)) :
    assocRead k (assocWrite k v l) = some v := by
  induction l with
  | nil => simp [assocRead, assocWrite]
  | cons e rest ih =>
    by_cases h : e.1 = k
    · simp [assocRead, assocWrite, h]
    · simp [assocRead, assocWrite, h, ih]

theorem assocRead_write_ne {κ ν : Type} [DecidableEq κ] (k k2 : κ) (v : ν)
    (l : List (κ × ν)) (h : k2 ≠ k) :
    assocRead k (assocWrite k2 v l) = assocRead k l := by
  induction l with
  | nil => simp [assocRead, assocWrite, h]
  | cons e rest ih =>
    by_cases he : e.1 = k2
    · simp [assocRead, assocWrite, he, h]
    · by_cases hk : e.1 = k <;> simp [assocRead, assocWrite, he, hk, ih, Ne.symm h]

theorem assocWrite_write_self {κ ν : Type} [DecidableEq κ] (k : κ) (v w : ν)
    (l : List (κ × ν)) :
    assocWrite k v (assocWrite k w l) = assocWrite k v l := by
  induction l with
  | nil => simp [assocWrite]
  | cons e rest ih =>
    by_cases h : e.1 = k
    · simp [assocWrite, h]
    · simp [assocWrite, h, ih]

theorem assocWrite_read_self {κ ν : Type} [DecidableEq κ] (k : κ) (v : ν)
    (l : List (κ × ν)) (h : assocRead k l = some v) :
    assocWrite k v l = l := by
  induction l with
  | nil => simp [assocRead] at h
  | cons e rest ih =>
    by_cases he : e.1 = k
    · simp only [assocRead, if_pos he, Option.some_inj] at h
      simp [assocWrite, he]
      exact Prod.ext he.symm h.symm
    · simp only [assocRead, if_neg he] at h
      simp [assocWrite, he, ih h]

theorem assocRead_eq_none_of_not_mem {κ ν : Type} [DecidableEq κ] (k : κ)
    (l : List (κ × ν)) (h : k ∉ l.map Prod.fst) :
    assocRead k l = none := by
  induction l with
  | nil => simp [assocRead]
  | cons e rest ih =>
    simp only [List.map_cons, List.mem_cons, not_or] at h
    have hne : ¬ e.1 = k := fun he => h.1 he.symm
    simp [assocRead, hne, ih h.2]

theorem insertDir_mem (d : String) (ds : List String) : d ∈ insertDir d ds := by
  by_cases h : d ∈ ds <;> simp [insertDir, h]

theorem insertDir_mem_of_mem (d d2 : String) (ds : List String) (h : d ∈ ds) :
    d ∈ insertDir d2 ds := by
  by_cases h2 : d2 ∈ ds <;> simp [insertDir, h2, h]

theorem insertDir_of_mem (d : String) (ds : List String) (h : d ∈ ds) :
    insertDir d ds = ds := by
  simp [insertDir, h]

/-! ## Helper lemmas: the manifest edit -/

/-- The attribute substring occurs in the replacement text. -/
theorem nscAttr_infix_appTagPatched : nscAttr <:+: appTagPatched :=
  ⟨"<application ".data, "=\"@xml/network_security_config\"".data, by decide⟩

/-- After one application of the manifest edit to a manifest that
mentions `<application`, the attribute substring is present. -/
theorem patchManifestContent_contains (c : List Char) (happ : appTag <:+: c) :
    containsSub nscAttr (patchManifestContent c) = true := by
  unfold patchManifestContent
  by_cases h : containsSub nscAttr c
  · simpa [h] using h
  · rw [if_neg (by simp [h])]
    rw [containsSub_iff]
    exact nscAttr_infix_appTagPatched.trans
      (replaceAll_contains_rep appTag appTagPatched c (by decide) happ)

/-- The manifest edit is idempotent on content. -/
theorem patchManifestContent_idem (c : List Char) :
    patchManifestContent (patchManifestContent c) = patchManifestContent c := by
  by_cases happ : appTag <:+: c
  · have h1 := patchManifestContent_contains c happ
    rw [patchManifestContent, if_pos h1]
  · have hc : replaceAll appTag appTagPatched c = c :=
      replaceAll_no_occurrence appTag appTagPatched c happ
    have hp : patchManifestContent c = c := by
      unfold patchManifestContent
      by_cases h : containsSub nscAttr c <;> simp [h, hc]
    rw [hp]
    exact hp

/-- Normal form of one `mitm_patch` run on a project that contains a
manifest. -/
theorem mitm_patch_run (fs : PFS) (c : List Char)
    (h : assocRead manifestPath fs.files = some c) :
    mitm_patch fs =
      (⟨insertDir "res/xml" (insertDir "res" fs.dirs),
        assocWrite manifestPath (patchManifestContent c)
          (assocWrite nscPath config_content fs.files)⟩,
       (true,
        "MITM patch applied to AndroidManifest.xml and network_security_config.xml created.",
        "")) := by
  have hne : nscPath ≠ manifestPath := by decide
  have h1 : assocRead manifestPath (assocWrite nscPath config_content fs.files) =
      some c := by
    rw [assocRead_write_ne _ _ _ _ hne]; exact h
  simp only [mitm_patch]
  rw [h1]
  dsimp only
  by_cases hc : containsSub nscAttr c
  · simp only [hc, if_true]
    unfold patchManifestContent
    rw [if_pos hc, assocWrite_read_self _ _ _ h1]
  · rw [if_neg hc]
    unfold patchManifestContent
    rw [if_neg hc]

/-- C3: invoking the Patch Stage (`mitm_patch`) twice on a project that
contains a manifest yields the same project state — in particular the
same manifest content — as invoking it once; the second invocation does
not insert a duplicate `android:networkSecurityConfig` attribute. -/
theorem mitm_patch_idempotent (fs : PFS) (c : List Char)
    (h : assocRead manifestPath fs.files = some c) :
    (mitm_patch (mitm_patch fs).1).1 = (mitm_patch fs).1 := by
  have hne : nscPath ≠ manifestPath := by decide
  have hne2 : manifestPath ≠ nscPath := by decide
  rw [mitm_patch_run fs c h]
  have hread : assocRead manifestPath
      (assocWrite manifestPath (patchManifestContent c)
        (assocWrite nscPath config_content fs.files)) =
      some (patchManifestContent c) := assocRead_write_self _ _ _
  rw [mitm_patch_run _ (patchManifestContent c) hread]
  have hdirs : insertDir "res/xml"
      (insertDir "res" (insertDir "res/xml" (insertDir "res" fs.dirs))) =
      insertDir "res/xml" (insertDir "res" fs.dirs) := by
    rw [insertDir_of_mem "res" _
      (insertDir_mem_of_mem _ _ _ (insertDir_mem "res" fs.dirs))]
    rw [insertDir_of_mem "res/xml" _ (insertDir_mem _ _)]
  have hcfg : assocWrite nscPath config_content
      (assocWrite manifestPath (patchManifestContent c)
        (assocWrite nscPath config_content fs.files)) =
      assocWrite manifestPath (patchManifestContent c)
        (assocWrite nscPath config_content fs.files) := by
    apply assocWrite_read_self
    rw [assocRead_write_ne _ _ _ _ hne2]
    exact assocRead_write_self _ _ _
  rw [hcfg, patchManifestContent_idem, assocWrite_write_self, hdirs]

/-- Closed instance of `mitm_patch_idempotent` on a concrete project. -/
theorem mitm_patch_idempotent_witness :
    assocRead manifestPath exFS.files = some exManifest ∧
    (mitm_patch (mitm_patch exFS).1).1 = (mitm_patch exFS).1 :=
  ⟨by decide, mitm_patch_idempotent exFS exManifest (by decide)⟩

/-- C9: when the manifest is absent, `mitm_patch` still creates the
`res/xml` directory and writes the fixed network-security-config file
before returning a failure result — the error return does not leave the
project directory unchanged. -/
theorem mitm_patch_missing_manifest_still_writes (fs : PFS)
    (h : assocRead manifestPath fs.files = none) :
    (mitm_patch fs).2.1 = false ∧
    (mitm_patch fs).2.2.1 = "AndroidManifest.xml not found." ∧
    "res/xml" ∈ (mitm_patch fs).1.dirs ∧
    assocRead nscPath (mitm_patch fs).1.files = some config_content := by
  have hne : nscPath ≠ manifestPath := by decide
  have h1 : assocRead manifestPath (assocWrite nscPath config_content fs.files) =
      none := by
    rw [assocRead_write_ne _ _ _ _ hne]; exact h
  simp only [mitm_patch]
  rw [h1]
  dsimp only
  exact ⟨rfl, rfl, insertDir_mem _ _, assocRead_write_self _ _ _⟩

/-- Closed instance of `mitm_patch_missing_manifest_still_writes` on a
concrete manifest-less project. -/
theorem mitm_patch_missing_manifest_still_writes_witness :
    assocRead manifestPath exFSnoManifest.files = none ∧
    ((mitm_patch exFSnoManifest).2.1 = false ∧
     (mitm_patch exFSnoManifest).2.2.1 = "AndroidManifest.xml not found." ∧
     "res/xml" ∈ (mitm_patch exFSnoManifest).1.dirs ∧
     assocRead nscPath (mitm_patch exFSnoManifest).1.files = some config_content) :=
  ⟨by decide, mitm_patch_missing_manifest_still_writes exFSnoManifest (by decide)⟩

/-! ## Helper lemmas: archives as association lists -/

theorem assocRead_append {κ ν : Type} [DecidableEq κ] (k : κ)
    (l1 l2 : List (κ × ν)) :
    assocRead k (l1 ++ l2) =
      match assocRead k l1 with
      | some v => some v
      | none => assocRead k l2 := by
  induction l1 with
  | nil => simp [assocRead]
  | cons e rest ih =>
    by_cases h : e.1 = k <;> simp [assocRead, h, ih]

theorem assocRead_mapCons (n : String) (es : List (List String × List Nat))
    (p : List String) :
    assocRead p (es.map (fun e => (n :: e.1, e.2))) =
      match p with
      | [] => none
      | m :: rest => if m = n then assocRead rest es else none := by
  induction es with
  | nil => cases p <;> simp [assocRead]
  | cons e rest ih =>
    cases p with
    | nil => simp [assocRead, ih]
    | cons m ps =>
      by_cases hm : m = n
      · subst hm
        by_cases he : e.1 = ps
        · simp [assocRead, he]
        · have : ¬ (m :: e.1 = m :: ps) := by simp [he]
          simp only [List.map_cons, assocRead, this, if_false, ih, if_pos rfl]
          simp [assocRead, he]
      · have : ¬ (n :: e.1 = m :: ps) := by
          intro hcon
          injection hcon with h1 _
          exact hm h1.symm
        simp only [List.map_cons, assocRead, this, if_false, ih]
        simp [hm]

/-- Every archive entry key is non-empty, so the empty relative path is
never found. -/
theorem assocRead_nil_nodeEntries : ∀ (h : FsNode),
    assocRead ([] : List String) (nodeEntries h) = none
  | .file n c => by simp [nodeEntries, assocRead]
  | .dir n cs => by rw [nodeEntries, assocRead_mapCons]

theorem assocRead_nil_listEntries : ∀ (t : FsList),
    assocRead ([] : List String) (listEntries t) = none
  | .nil => by simp [listEntries, assocRead]
  | .cons h t => by
    rw [listEntries, assocRead_append, assocRead_nil_nodeEntries h,
      assocRead_nil_listEntries t]

mutual
/-- First-match lookup in the archive entries of a node agrees with
navigation of the directory tree. -/
theorem nodeLookup_eq_assocRead : ∀ (h : FsNode) (p : List String),
    assocRead p (nodeEntries h) = nodeLookup h p
  | .file n c, p => by
    cases p with
    | nil => simp [nodeEntries, assocRead, nodeLookup]
    | cons m ps =>
      cases ps with
      | nil =>
        by_cases hm : m = n
        · simp [nodeEntries, assocRead, nodeLookup, hm]
        · have hnm : ¬n = m := fun h => hm h.symm
          simp [nodeEntries, assocRead, nodeLookup, hm, hnm]
      | cons p2 ps2 => simp [nodeEntries, assocRead, nodeLookup]
  | .dir n cs, p => by
    rw [nodeEntries, assocRead_mapCons]
    cases p with
    | nil => simp [nodeLookup]
    | cons m ps =>
      cases ps with
      | nil =>
        by_cases hm : m = n <;>
          simp [nodeLookup, hm, assocRead_nil_listEntries cs]
      | cons p2 ps2 =>
        by_cases hm : m = n <;>
          simp [nodeLookup, hm, listLookup_eq_assocRead cs (p2 :: ps2)]
/-- First-match lookup in the archive entries of a listing agrees with
navigation of the directory tree. -/
theorem listLookup_eq_assocRead : ∀ (t : FsList) (p : List String),
    assocRead p (listEntries t) = listLookup t p
  | .nil, p => by simp [listEntries, assocRead, listLookup]
  | .cons h t, p => by
    rw [listEntries, assocRead_append, nodeLookup_eq_assocRead h p,
      listLookup_eq_assocRead t p]
    cases hn : nodeLookup h p <;> simp [listLookup, hn]
end

/-- Every archive entry below a node starts with that node's name. -/
theorem head_of_mem_nodeEntries : ∀ (h : FsNode) (e : List String × List Nat),
    e ∈ nodeEntries h → e.1.head? = some (nodeName h)
  | .file n c, e => by
    intro he
    simp only [nodeEntries, List.mem_singleton] at he
    simp [he, nodeName]
  | .dir n cs, e => by
    intro he
    simp only [nodeEntries, List.mem_map] at he
    obtain ⟨a, _, rfl⟩ := he
    simp [nodeName]

/-- Every archive entry of a listing starts with one of its node
names. -/
theorem head_mem_listNames : ∀ (t : FsList) (e : List String × List Nat),
    e ∈ listEntries t → ∃ nm ∈ listNames t, e.1.head? = some nm
  | .nil, e => by simp [listEntries]
  | .cons h t, e => by
    intro he
    rw [listEntries, List.mem_append] at he
    rcases he with he | he
    · exact ⟨nodeName h, by simp [listNames], head_of_mem_nodeEntries h e he⟩
    · obtain ⟨nm, hnm, hh⟩ := head_mem_listNames t e he
      exact ⟨nm, by simp [listNames, hnm], hh⟩

mutual
/-- In a well-formed tree, the relative paths below a node are
pairwise distinct. -/
theorem nodeEntries_keys_nodup : ∀ (h : FsNode), nodeWf h = true →
    ((nodeEntries h).map Prod.fst).Nodup
  | .file n c, _ => by simp [nodeEntries]
  | .dir n cs, hw => by
    rw [nodeEntries]
    have hcs : listWf cs = true := by
      simpa [nodeWf] using hw
    have hnd := listEntries_keys_nodup cs hcs
    have hmap : (List.map (fun e : List String × List Nat => (n :: e.1, e.2))
        (listEntries cs)).map Prod.fst =
        ((listEntries cs).map Prod.fst).map (fun k => n :: k) := by
      rw [List.map_map, List.map_map]
      rfl
    rw [hmap]
    exact hnd.map (fun a b hab => by injection hab)
/-- In a well-formed tree, the relative paths of a listing are pairwise
distinct. -/
theorem listEntries_keys_nodup : ∀ (t : FsList), listWf t = true →
    ((listEntries t).map Prod.fst).Nodup
  | .nil, _ => by simp [listEntries]
  | .cons h t, hw => by
    rw [listWf, Bool.and_eq_true, Bool.and_eq_true] at hw
    obtain ⟨⟨hmemb, hwh⟩, hwt⟩ := hw
    have hmem : nodeName h ∉ listNames t := by
      rw [Bool.not_eq_true'] at hmemb
      simpa using hmemb
    rw [listEntries, List.map_append]
    refine List.Nodup.append (nodeEntries_keys_nodup h hwh)
      (listEntries_keys_nodup t hwt) ?_
    intro k hk1 hk2
    obtain ⟨e1, he1, hek1⟩ := List.mem_map.mp hk1
    obtain ⟨e2, he2, hek2⟩ := List.mem_map.mp hk2
    have hh1 := head_of_mem_nodeEntries h e1 he1
    obtain ⟨nm, hnm, hh2⟩ := head_mem_listNames t e2 he2
    rw [hek1] at hh1
    rw [hek2] at hh2
    rw [hh1] at hh2
    exact hmem (Option.some_inj.mp hh2 ▸ hnm)
end

/-- Extracting entries none of which matches `q` leaves the lookup of
`q` unchanged. -/
theorem assocRead_extractAll_none :
    ∀ (es m : List (List String × List Nat)) (q : List String),
    assocRead q es = none →
    assocRead q (extractAllEntries es m) = assocRead q m
  | [], m, q => by intro _; simp [extractAllEntries]
  | e :: rest, m, q => by
    intro hr
    by_cases hq : e.1 = q
    · rw [assocRead, if_pos hq] at hr
      exact absurd hr (by simp)
    · rw [assocRead, if_neg hq] at hr
      rw [extractAllEntries, assocRead_extractAll_none rest _ q hr,
        assocRead_write_ne q e.1 e.2 m hq]

/-- Extracting entries with pairwise-distinct paths reproduces the entry
found for `q`. -/
theorem assocRead_extractAll_found :
    ∀ (es m : List (List String × List Nat)) (q : List String) (v : List Nat),
    (es.map Prod.fst).Nodup → assocRead q es = some v →
    assocRead q (extractAllEntries es m) = some v
  | [], m, q, v => by intro _ h; simp [assocRead] at h
  | e :: rest, m, q, v => by
    intro hnd hr
    simp only [List.map_cons, List.nodup_cons] at hnd
    rw [extractAllEntries]
    by_cases hq : e.1 = q
    · rw [assocRead, if_pos hq, Option.some_inj] at hr
      have hnone : assocRead q rest = none :=
        assocRead_eq_none_of_not_mem q rest (hq ▸ hnd.1)
      rw [assocRead_extractAll_none rest _ q hnone]
      rw [← hq, ← hr]
      exact assocRead_write_self e.1 e.2 m
    · rw [assocRead, if_neg hq] at hr
      exact assocRead_extractAll_found rest _ q v hnd.2 hr

/-- C2: archive round-trip.  Serializing a (well-formed) directory tree
with `create_zip` and then extracting the archive as
`rebuild_and_sign_apk` does with `ZipFile.extractall` reproduces exactly
the original relative file paths with byte-identical contents: looking
up any relative path in the extracted store gives precisely the file the
tree holds at that path. -/
theorem create_zip_roundtrip (t : FsList) (hwf : listWf t = true)
    (p : List String) :
    assocRead p (extractAllEntries (create_zip t) []) = listLookup t p := by
  have hnd := listEntries_keys_nodup t hwf
  rw [create_zip]
  cases hr : assocRead p (listEntries t) with
  | some v =>
    have heq := listLookup_eq_assocRead t p
    rw [hr] at heq
    rw [assocRead_extractAll_found _ _ p v hnd hr]
    exact heq
  | none =>
    have heq := listLookup_eq_assocRead t p
    rw [hr] at heq
    rw [assocRead_extractAll_none _ _ p hr]
    simp [assocRead, ← heq]

/-- Closed instance of `create_zip_roundtrip` on a concrete tree. -/
theorem create_zip_roundtrip_witness :
    listWf exTree = true ∧
    assocRead ["res", "strings.xml"] (extractAllEntries (create_zip exTree) []) =
      listLookup exTree ["res", "strings.xml"] :=
  ⟨by decide, create_zip_roundtrip exTree (by decide) ["res", "strings.xml"]⟩

/-! ## Acquisition Stage: the missing content-length case -/

/-- C7: the claim says a download whose response has no content-length
still completes and returns the local path.  The code disagrees: with
`total_size = int(headers.get('content-length', 0)) = 0` and a
non-empty body, the progress computation `bytes_downloaded / total_size`
raises `ZeroDivisionError` on the first chunk, so `download_apk` fails;
the identical download with the header present succeeds and returns the
path. -/
theorem download_apk_zero_division :
    download_apk "http://example.com/sample.apk" exResponseNoLength =
      Except.error PyErr.zeroDivision ∧
    download_apk "http://example.com/sample.apk" exResponseWithLength =
      Except.ok "temp/sample.apk" := by
  constructor <;> rfl

/-! ## Helper lemmas: the decode pipeline -/

/-- Normal form of `decode_phase` when the required apktool decode
fails: the run stops with the failure status, nothing further happens. -/
theorem decode_phase_fail (env : Env) (apk_path : String)
    (opts : List String) (logs0 : List String) (evs0 : List Event)
    (hfail : (env.run (decode_cmd_of env apk_path opts)).1 = false) :
    decode_phase env apk_path opts logs0 evs0 =
      ⟨"Apktool failed.", none,
       logs0 ++
         ["Created project directory: " ++ project_dir_of env apk_path,
          "\n--- Apktool Decompilation ---\nRunning with options: " ++
            String.intercalate " " (parse_apktool_opts opts),
          "Apktool STDOUT:\n" ++ (env.run (decode_cmd_of env apk_path opts)).2.1,
          "Apktool STDERR:\n" ++ (env.run (decode_cmd_of env apk_path opts)).2.2],
       evs0 ++ [Event.makedirs (project_dir_of env apk_path),
                Event.runTool (decode_cmd_of env apk_path opts)]⟩ := by
  simp [decode_phase, hfail]

/-- The MITM stage only appends to the log and the trace, and its only
possible event is the patch itself. -/
theorem mitm_stage_shape (env : Env) (pd : String) (opts : List String)
    (st : List String × List Event) :
    ∃ l e, mitm_stage env pd opts st = (st.1 ++ l, st.2 ++ e) ∧
      (e = [] ∨ e = [Event.mitmPatch pd]) := by
  by_cases h : opts.contains "mitm_patch"
  · refine ⟨["\n--- MITM Patch ---", (mitm_patch env.decodedFS).2.2.1,
      (mitm_patch env.decodedFS).2.2.2], [Event.mitmPatch pd], ?_, Or.inr rfl⟩
    simp only [mitm_stage]
    rw [if_pos h]
  · exact ⟨[], [], by simp only [mitm_stage]; rw [if_neg h]; simp, Or.inl rfl⟩

/-- The Quark stage only appends to the log and the trace, and its only
possible event is the quark invocation. -/
theorem quark_stage_shape (env : Env) (apk_path pd : String)
    (opts : List String) (st : List String × List Event) :
    ∃ l e, quark_stage env apk_path pd opts st = (st.1 ++ l, st.2 ++ e) ∧
      (e = [] ∨ e = [Event.runTool (quark_analyze_cmd apk_path pd)]) := by
  by_cases h : opts.contains "quark_analysis"
  · by_cases hr : (env.run (quark_analyze_cmd apk_path pd)).1
    · refine ⟨["\n--- Quark Engine Analysis ---",
        "Quark STDOUT:\n" ++ (env.run (quark_analyze_cmd apk_path pd)).2.1,
        "Quark STDERR:\n" ++ (env.run (quark_analyze_cmd apk_path pd)).2.2],
        [Event.runTool (quark_analyze_cmd apk_path pd)], ?_, Or.inr rfl⟩
      simp only [quark_stage]
      rw [if_pos h]
      simp [hr]
    · refine ⟨["\n--- Quark Engine Analysis ---",
        "Quark STDOUT:\n" ++ (env.run (quark_analyze_cmd apk_path pd)).2.1,
        "Quark STDERR:\n" ++ (env.run (quark_analyze_cmd apk_path pd)).2.2,
        "Quark analysis failed."],
        [Event.runTool (quark_analyze_cmd apk_path pd)], ?_, Or.inr rfl⟩
      simp only [quark_stage]
      rw [if_pos h]
      simp [hr]
  · exact ⟨[], [], by simp only [quark_stage]; rw [if_neg h]; simp, Or.inl rfl⟩

/-- The JADX stage only appends to the log and the trace, and its only
possible event is the JADX invocation. -/
theorem jadx_stage_shape (env : Env) (apk_path pd : String)
    (opts : List String) (st : List String × List Event) :
    ∃ l e, jadx_stage env apk_path pd opts st = (st.1 ++ l, st.2 ++ e) ∧
      (e = [] ∨
       e = [Event.runTool (jadx_decompile_cmd apk_path pd (parse_jadx_opts opts))]) := by
  by_cases h : opts.contains "decompile_java"
  · by_cases hr : (env.run (jadx_decompile_cmd apk_path pd (parse_jadx_opts opts))).1
    · refine ⟨["\n--- JADX Decompilation ---\nRunning with options: " ++
          String.intercalate " " (parse_jadx_opts opts),
        "JADX STDOUT:\n" ++
          (env.run (jadx_decompile_cmd apk_path pd (parse_jadx_opts opts))).2.1,
        "JADX STDERR:\n" ++
          (env.run (jadx_decompile_cmd apk_path pd (parse_jadx_opts opts))).2.2],
        [Event.runTool (jadx_decompile_cmd apk_path pd (parse_jadx_opts opts))],
        ?_, Or.inr rfl⟩
      simp only [jadx_stage]
      rw [if_pos h]
      simp [hr]
    · refine ⟨["\n--- JADX Decompilation ---\nRunning with options: " ++
          String.intercalate " " (parse_jadx_opts opts),
        "JADX STDOUT:\n" ++
          (env.run (jadx_decompile_cmd apk_path pd (parse_jadx_opts opts))).2.1,
        "JADX STDERR:\n" ++
          (env.run (jadx_decompile_cmd apk_path pd (parse_jadx_opts opts))).2.2,
        "JADX decompilation failed."],
        [Event.runTool (jadx_decompile_cmd apk_path pd (parse_jadx_opts opts))],
        ?_, Or.inr rfl⟩
      simp only [jadx_stage]
      rw [if_pos h]
      simp [hr]
  · exact ⟨[], [], by simp only [jadx_stage]; rw [if_neg h]; simp, Or.inl rfl⟩

/-- The three optional stages together only append, and every appended
event is one of the three optional-stage events. -/
theorem stages_shape (env : Env) (apk_path pd : String) (opts : List String)
    (st : List String × List Event) :
    ∃ l e,
      jadx_stage env apk_path pd opts
        (quark_stage env apk_path pd opts (mitm_stage env pd opts st)) =
        (st.1 ++ l, st.2 ++ e) ∧
      ∀ x ∈ e, x = Event.mitmPatch pd ∨
        x = Event.runTool (quark_analyze_cmd apk_path pd) ∨
        x = Event.runTool (jadx_decompile_cmd apk_path pd (parse_jadx_opts opts)) := by
  obtain ⟨l1, e1, h1, he1⟩ := mitm_stage_shape env pd opts st
  obtain ⟨l2, e2, h2, he2⟩ :=
    quark_stage_shape env apk_path pd opts (mitm_stage env pd opts st)
  obtain ⟨l3, e3, h3, he3⟩ :=
    jadx_stage_shape env apk_path pd opts
      (quark_stage env apk_path pd opts (mitm_stage env pd opts st))
  refine ⟨l1 ++ (l2 ++ l3), e1 ++ (e2 ++ e3), ?_, ?_⟩
  · rw [h3, h2, h1]
    simp [List.append_assoc]
  · intro x hx
    rcases List.mem_append.mp hx with hx1 | hx23
    · rcases he1 with rfl | rfl
      · simp at hx1
      · simp only [List.mem_singleton] at hx1
        exact Or.inl hx1
    · rcases List.mem_append.mp hx23 with hx2 | hx3
      · rcases he2 with rfl | rfl
        · simp at hx2
        · simp only [List.mem_singleton] at hx2
          exact Or.inr (Or.inl hx2)
      · rcases he3 with rfl | rfl
        · simp at hx3
        · simp only [List.mem_singleton] at hx3
          exact Or.inr (Or.inr hx3)

/-- Normal form of `decode_phase` when the required apktool decode
succeeds: the optional stages run over the decode log/trace, then the
project is packaged and the working directory removed. -/
theorem decode_phase_success (env : Env) (apk_path : String) (opts : List String)
    (logs0 : List String) (evs0 : List Event)
    (hok : (env.run (decode_cmd_of env apk_path opts)).1 = true) :
    decode_phase env apk_path opts logs0 evs0 =
      (let st := jadx_stage env apk_path (project_dir_of env apk_path) opts
        (quark_stage env apk_path (project_dir_of env apk_path) opts
          (mitm_stage env (project_dir_of env apk_path) opts
            (logs0 ++
              ["Created project directory: " ++ project_dir_of env apk_path,
               "\n--- Apktool Decompilation ---\nRunning with options: " ++
                 String.intercalate " " (parse_apktool_opts opts),
               "Apktool STDOUT:\n" ++ (env.run (decode_cmd_of env apk_path opts)).2.1,
               "Apktool STDERR:\n" ++ (env.run (decode_cmd_of env apk_path opts)).2.2],
             evs0 ++ [Event.makedirs (project_dir_of env apk_path),
                      Event.runTool (decode_cmd_of env apk_path opts)])));
      ⟨"Success! Project decompiled and zipped.", some (zip_path_of apk_path),
       st.1 ++ ["\nProject zipped to " ++ zip_path_of apk_path],
       st.2 ++ [Event.createZip (project_dir_of env apk_path) (zip_path_of apk_path),
                Event.rmtree (project_dir_of env apk_path)]⟩) := by
  simp [decode_phase, hok]

/-- With the tools present, an uploaded file short-circuits acquisition:
the pipeline proceeds on the uploaded path, and the only event recorded
before the decode phase is the Java probe — no download. -/
theorem process_apk_upload (env : Env) (f apk_url : String) (opts : List String)
    (hjava : (env.run ["java", "--version"]).1 = true)
    (hap : env.apktoolExists = true) (hsg : env.signerExists = true)
    (hjx : env.jadxExists = true) :
    process_apk env (some f) apk_url opts =
      Except.ok (decode_phase env f opts
        ["--- Tool Check ---\n" ++ (check_tools env).2.1,
         "Processing uploaded file: " ++ f]
        [Event.runTool ["java", "--version"]]) := by
  simp [process_apk, check_tools, hjava, hap, hsg, hjx]

/-- With the tools present, no uploaded file and a URL whose download
succeeds, the pipeline proceeds on the downloaded path. -/
theorem process_apk_url (env : Env) (apk_url p : String) (opts : List String)
    (hjava : (env.run ["java", "--version"]).1 = true)
    (hap : env.apktoolExists = true) (hsg : env.signerExists = true)
    (hjx : env.jadxExists = true)
    (hurl : apk_url ≠ "") (hdl : env.download apk_url = Except.ok p) :
    process_apk env none apk_url opts =
      Except.ok (decode_phase env p opts
        ["--- Tool Check ---\n" ++ (check_tools env).2.1,
         "Downloading APK from URL: " ++ apk_url,
         "APK downloaded to: " ++ p]
        [Event.runTool ["java", "--version"], Event.downloadUrl apk_url]) := by
  simp [process_apk, check_tools, hjava, hap, hsg, hjx, hurl, hdl]

/-- A failed quark invocation appends its non-fatal failure line. -/
theorem quark_stage_fail_log (env : Env) (apk_path pd : String)
    (opts : List String) (st : List String × List Event)
    (hsel : opts.contains "quark_analysis" = true)
    (hfail : (env.run (quark_analyze_cmd apk_path pd)).1 = false) :
    "Quark analysis failed." ∈ (quark_stage env apk_path pd opts st).1 := by
  simp only [quark_stage]
  rw [if_pos hsel]
  simp [hfail]

/-- A failed JADX invocation appends its non-fatal failure line. -/
theorem jadx_stage_fail_log (env : Env) (apk_path pd : String)
    (opts : List String) (st : List String × List Event)
    (hsel : opts.contains "decompile_java" = true)
    (hfail : (env.run (jadx_decompile_cmd apk_path pd (parse_jadx_opts opts))).1 =
      false) :
    "JADX decompilation failed." ∈ (jadx_stage env apk_path pd opts st).1 := by
  simp only [jadx_stage]
  rw [if_pos hsel]
  simp [hfail]

/-- A selected MITM stage appends its reported message (for example the
failure message when the manifest is absent). -/
theorem mitm_stage_msg (env : Env) (pd : String) (opts : List String)
    (st : List String × List Event)
    (hsel : opts.contains "mitm_patch" = true) :
    (mitm_patch env.decodedFS).2.2.1 ∈ (mitm_stage env pd opts st).1 := by
  simp only [mitm_stage]
  rw [if_pos hsel]
  simp

/-- The quark stage keeps every earlier log line. -/
theorem quark_stage_mono (env : Env) (apk_path pd : String)
    (opts : List String) (st : List String × List Event) (x : String)
    (hx : x ∈ st.1) : x ∈ (quark_stage env apk_path pd opts st).1 := by
  obtain ⟨l, e, heq, -⟩ := quark_stage_shape env apk_path pd opts st
  rw [heq]
  exact List.mem_append_left _ hx

/-- The JADX stage keeps every earlier log line. -/
theorem jadx_stage_mono (env : Env) (apk_path pd : String)
    (opts : List String) (st : List String × List Event) (x : String)
    (hx : x ∈ st.1) : x ∈ (jadx_stage env apk_path pd opts st).1 := by
  obtain ⟨l, e, heq, -⟩ := jadx_stage_shape env apk_path pd opts st
  rw [heq]
  exact List.mem_append_left _ hx

/-- All observable consequences of a successful decode, whatever the
optional stages do: the run reports success, offers the archive,
packages and removes the working directory, and each selected failing
optional stage only contributes its log line. -/
theorem decode_phase_success_props (env : Env) (p : String)
    (opts : List String) (logs0 : List String) (evs0 : List Event)
    (hok : (env.run (decode_cmd_of env p opts)).1 = true) :
    (decode_phase env p opts logs0 evs0).status =
      "Success! Project decompiled and zipped." ∧
    (decode_phase env p opts logs0 evs0).download = some (zip_path_of p) ∧
    Event.createZip (project_dir_of env p) (zip_path_of p) ∈
      (decode_phase env p opts logs0 evs0).events ∧
    Event.rmtree (project_dir_of env p) ∈
      (decode_phase env p opts logs0 evs0).events ∧
    ("quark_analysis" ∈ opts →
      (env.run (quark_analyze_cmd p (project_dir_of env p))).1 = false →
      "Quark analysis failed." ∈ (decode_phase env p opts logs0 evs0).logs) ∧
    ("decompile_java" ∈ opts →
      (env.run (jadx_decompile_cmd p (project_dir_of env p)
        (parse_jadx_opts opts))).1 = false →
      "JADX decompilation failed." ∈ (decode_phase env p opts logs0 evs0).logs) ∧
    ("mitm_patch" ∈ opts →
      (mitm_patch env.decodedFS).2.2.1 ∈ (decode_phase env p opts logs0 evs0).logs) := by
  rw [decode_phase_success env p opts logs0 evs0 hok]
  dsimp only
  refine ⟨rfl, rfl, ?_, ?_, ?_, ?_, ?_⟩
  · exact List.mem_append_right _ (by simp)
  · exact List.mem_append_right _ (by simp)
  · intro hsel hfail
    refine List.mem_append_left _ ?_
    exact jadx_stage_mono env p (project_dir_of env p) opts _ _
      (quark_stage_fail_log env p (project_dir_of env p) opts _
        (by simpa using hsel) hfail)
  · intro hsel hfail
    refine List.mem_append_left _ ?_
    exact jadx_stage_fail_log env p (project_dir_of env p) opts _
      (by simpa using hsel) hfail
  · intro hsel
    refine List.mem_append_left _ ?_
    exact jadx_stage_mono env p (project_dir_of env p) opts _ _
      (quark_stage_mono env p (project_dir_of env p) opts _ _
        (mitm_stage_msg env (project_dir_of env p) opts _
          (by simpa using hsel)))


/-- C1: if the required apktool decode invocation fails (non-zero exit),
the decode pipeline aborts immediately: the status indicates failure, no
download is offered, the tool's captured stdout and stderr appear in the
returned log, and no optional stage (patch, quark, JADX) runs, no
archive is created, and no cleanup removal happens afterwards. -/
theorem decode_failure_is_fatal (env : Env) (apk_file : Option String)
    (apk_url p : String) (opts : List String)
    (hjava : (env.run ["java", "--version"]).1 = true)
    (hap : env.apktoolExists = true) (hsg : env.signerExists = true)
    (hjx : env.jadxExists = true)
    (hacq : apk_file = some p ∨
      (apk_file = none ∧ apk_url ≠ "" ∧ env.download apk_url = Except.ok p))
    (hfail : (env.run (decode_cmd_of env p opts)).1 = false) :
    ∃ r : RunOut,
      process_apk env apk_file apk_url opts = Except.ok r ∧
      r.status = "Apktool failed." ∧
      r.download = none ∧
      ("Apktool STDOUT:\n" ++ (env.run (decode_cmd_of env p opts)).2.1) ∈ r.logs ∧
      ("Apktool STDERR:\n" ++ (env.run (decode_cmd_of env p opts)).2.2) ∈ r.logs ∧
      (∀ s z, Event.createZip s z ∉ r.events) ∧
      (∀ d, Event.mitmPatch d ∉ r.events) ∧
      (∀ d, Event.rmtree d ∉ r.events) ∧
      Event.runTool (quark_analyze_cmd p (project_dir_of env p)) ∉ r.events ∧
      Event.runTool (jadx_decompile_cmd p (project_dir_of env p)
        (parse_jadx_opts opts)) ∉ r.events := by
  rcases hacq with rfl | ⟨rfl, hurl, hdl⟩
  · rw [process_apk_upload env p apk_url opts hjava hap hsg hjx,
      decode_phase_fail env p opts _ _ hfail]
    refine ⟨_, rfl, rfl, rfl, ?_, ?_, ?_, ?_, ?_, ?_, ?_⟩ <;>
      simp [quark_analyze_cmd, jadx_decompile_cmd, decode_cmd_of,
        apktool_decode_cmd, JADX_PATH, APKTOOL_PATH]
  · rw [process_apk_url env apk_url p opts hjava hap hsg hjx hurl hdl,
      decode_phase_fail env p opts _ _ hfail]
    refine ⟨_, rfl, rfl, rfl, ?_, ?_, ?_, ?_, ?_, ?_, ?_⟩ <;>
      simp [quark_analyze_cmd, jadx_decompile_cmd, decode_cmd_of,
        apktool_decode_cmd, JADX_PATH, APKTOOL_PATH]

/-- Closed instance of `decode_failure_is_fatal` on a concrete failing
environment. -/
theorem decode_failure_is_fatal_witness :
    ∃ r : RunOut,
      process_apk envDecodeFail (some "sample.apk") "" [] = Except.ok r ∧
      r.status = "Apktool failed." ∧
      r.download = none ∧
      ("Apktool STDOUT:\n" ++
        (envDecodeFail.run (decode_cmd_of envDecodeFail "sample.apk" [])).2.1) ∈ r.logs ∧
      ("Apktool STDERR:\n" ++
        (envDecodeFail.run (decode_cmd_of envDecodeFail "sample.apk" [])).2.2) ∈ r.logs ∧
      Event.createZip (project_dir_of envDecodeFail "sample.apk")
        (zip_path_of "sample.apk") ∉ r.events ∧
      Event.mitmPatch (project_dir_of envDecodeFail "sample.apk") ∉ r.events ∧
      Event.rmtree (project_dir_of envDecodeFail "sample.apk") ∉ r.events ∧
      Event.runTool (quark_analyze_cmd "sample.apk"
        (project_dir_of envDecodeFail "sample.apk")) ∉ r.events ∧
      Event.runTool (jadx_decompile_cmd "sample.apk"
        (project_dir_of envDecodeFail "sample.apk") (parse_jadx_opts [])) ∉ r.events := by
  obtain ⟨r, hr, h1, h2, h3, h4, h5, h6, h7, h8, h9⟩ :=
    decode_failure_is_fatal envDecodeFail (some "sample.apk") "" "sample.apk" []
      (by decide) (by decide) (by decide) (by decide) (Or.inl rfl) (by decide)
  exact ⟨r, hr, h1, h2, h3, h4, h5 _ _, h6 _, h7 _, h8, h9⟩

/-- C5: when the required decode succeeds, a non-zero exit from the
quark analysis (and likewise from the JADX decompilation, and a failed
MITM patch) does not change the final outcome: the run still reports
success, still packages and offers the archive, and the sub-step
failure is only appended to the log. -/
theorem optional_stage_failures_isolated (env : Env) (apk_file : Option String)
    (apk_url p : String) (opts : List String)
    (hjava : (env.run ["java", "--version"]).1 = true)
    (hap : env.apktoolExists = true) (hsg : env.signerExists = true)
    (hjx : env.jadxExists = true)
    (hacq : apk_file = some p ∨
      (apk_file = none ∧ apk_url ≠ "" ∧ env.download apk_url = Except.ok p))
    (hok : (env.run (decode_cmd_of env p opts)).1 = true) :
    ∃ r : RunOut,
      process_apk env apk_file apk_url opts = Except.ok r ∧
      r.status = "Success! Project decompiled and zipped." ∧
      r.download = some (zip_path_of p) ∧
      Event.createZip (project_dir_of env p) (zip_path_of p) ∈ r.events ∧
      ("quark_analysis" ∈ opts →
        (env.run (quark_analyze_cmd p (project_dir_of env p))).1 = false →
        "Quark analysis failed." ∈ r.logs) ∧
      ("decompile_java" ∈ opts →
        (env.run (jadx_decompile_cmd p (project_dir_of env p)
          (parse_jadx_opts opts))).1 = false →
        "JADX decompilation failed." ∈ r.logs) ∧
      ("mitm_patch" ∈ opts →
        (mitm_patch env.decodedFS).2.2.1 ∈ r.logs) := by
  rcases hacq with rfl | ⟨rfl, hurl, hdl⟩
  · rw [process_apk_upload env p apk_url opts hjava hap hsg hjx]
    obtain ⟨h1, h2, h3, _, h5, h6, h7⟩ :=
      decode_phase_success_props env p opts
        ["--- Tool Check ---\n" ++ (check_tools env).2.1,
         "Processing uploaded file: " ++ p]
        [Event.runTool ["java", "--version"]] hok
    exact ⟨_, rfl, h1, h2, h3, h5, h6, h7⟩
  · rw [process_apk_url env apk_url p opts hjava hap hsg hjx hurl hdl]
    obtain ⟨h1, h2, h3, _, h5, h6, h7⟩ :=
      decode_phase_success_props env p opts
        ["--- Tool Check ---\n" ++ (check_tools env).2.1,
         "Downloading APK from URL: " ++ apk_url,
         "APK downloaded to: " ++ p]
        [Event.runTool ["java", "--version"], Event.downloadUrl apk_url] hok
    exact ⟨_, rfl, h1, h2, h3, h5, h6, h7⟩

/-- Closed instance of `optional_stage_failures_isolated`: the quark
invocation fails, yet the run succeeds and the failure line is in the
log. -/
theorem optional_stage_failures_isolated_witness :
    ∃ r : RunOut,
      process_apk envQuarkFail (some "sample.apk") "" ["quark_analysis"] =
        Except.ok r ∧
      r.status = "Success! Project decompiled and zipped." ∧
      r.download = some (zip_path_of "sample.apk") ∧
      Event.createZip (project_dir_of envQuarkFail "sample.apk")
        (zip_path_of "sample.apk") ∈ r.events ∧
      "Quark analysis failed." ∈ r.logs := by
  obtain ⟨r, hr, h1, h2, h3, hq, hj, hm⟩ :=
    optional_stage_failures_isolated envQuarkFail (some "sample.apk") ""
      "sample.apk" ["quark_analysis"]
      (by decide) (by decide) (by decide) (by decide) (Or.inl rfl) (by decide)
  exact ⟨r, hr, h1, h2, h3, hq (by decide) (by decide)⟩

/-- Whatever the decode result, `decode_phase` only appends to the
incoming log and trace; the first appended events are the directory
creation and the decode invocation, and every later event is one of the
optional-stage or packaging events. -/
theorem decode_phase_shape (env : Env) (p : String) (opts : List String)
    (logs0 : List String) (evs0 : List Event) :
    ∃ l e, (decode_phase env p opts logs0 evs0).logs = logs0 ++ l ∧
      (decode_phase env p opts logs0 evs0).events =
        evs0 ++ Event.makedirs (project_dir_of env p) ::
          Event.runTool (decode_cmd_of env p opts) :: e ∧
      ∀ x ∈ e, x = Event.mitmPatch (project_dir_of env p) ∨
        x = Event.runTool (quark_analyze_cmd p (project_dir_of env p)) ∨
        x = Event.runTool (jadx_decompile_cmd p (project_dir_of env p)
          (parse_jadx_opts opts)) ∨
        x = Event.createZip (project_dir_of env p) (zip_path_of p) ∨
        x = Event.rmtree (project_dir_of env p) := by
  by_cases hd : (env.run (decode_cmd_of env p opts)).1
  · rw [decode_phase_success env p opts logs0 evs0 hd]
    dsimp only
    obtain ⟨l, e, heq, hee⟩ := stages_shape env p (project_dir_of env p) opts
      (logs0 ++
        ["Created project directory: " ++ project_dir_of env p,
         "\n--- Apktool Decompilation ---\nRunning with options: " ++
           String.intercalate " " (parse_apktool_opts opts),
         "Apktool STDOUT:\n" ++ (env.run (decode_cmd_of env p opts)).2.1,
         "Apktool STDERR:\n" ++ (env.run (decode_cmd_of env p opts)).2.2],
       evs0 ++ [Event.makedirs (project_dir_of env p),
                Event.runTool (decode_cmd_of env p opts)])
    rw [heq]
    refine ⟨["Created project directory: " ++ project_dir_of env p,
        "\n--- Apktool Decompilation ---\nRunning with options: " ++
          String.intercalate " " (parse_apktool_opts opts),
        "Apktool STDOUT:\n" ++ (env.run (decode_cmd_of env p opts)).2.1,
        "Apktool STDERR:\n" ++ (env.run (decode_cmd_of env p opts)).2.2] ++ l ++
        ["\nProject zipped to " ++ zip_path_of p],
      e ++ [Event.createZip (project_dir_of env p) (zip_path_of p),
      Event.rmtree (project_dir_of env p)], by simp, by simp, ?_⟩
    intro x hx
    rcases List.mem_append.mp hx with hx | hx
    · rcases hee x hx with h | h | h
      · exact Or.inl h
      · exact Or.inr (Or.inl h)
      · exact Or.inr (Or.inr (Or.inl h))
    · simp only [List.mem_cons, List.mem_singleton, List.not_mem_nil] at hx
      rcases hx with h | h
      · exact Or.inr (Or.inr (Or.inr (Or.inl h)))
      · rcases h with h | h
        · exact Or.inr (Or.inr (Or.inr (Or.inr h)))
        · simp at h
  · rw [decode_phase_fail env p opts logs0 evs0 (by simpa using hd)]
    exact ⟨["Created project directory: " ++ project_dir_of env p,
        "\n--- Apktool Decompilation ---\nRunning with options: " ++
          String.intercalate " " (parse_apktool_opts opts),
        "Apktool STDOUT:\n" ++ (env.run (decode_cmd_of env p opts)).2.1,
        "Apktool STDERR:\n" ++ (env.run (decode_cmd_of env p opts)).2.2],
      [], by simp, by simp, by simp⟩

/-- With the tools present, no uploaded file and a URL whose download
fails, the pipeline returns the download-error status without creating
a project directory. -/
theorem process_apk_url_dlfail (env : Env) (apk_url e : String)
    (opts : List String)
    (hjava : (env.run ["java", "--version"]).1 = true)
    (hap : env.apktoolExists = true) (hsg : env.signerExists = true)
    (hjx : env.jadxExists = true)
    (hurl : apk_url ≠ "") (hdl : env.download apk_url = Except.error e) :
    process_apk env none apk_url opts =
      Except.ok ⟨"Error downloading APK: " ++ e, none,
        ["--- Tool Check ---\n" ++ (check_tools env).2.1,
         "Downloading APK from URL: " ++ apk_url],
        [Event.runTool ["java", "--version"], Event.downloadUrl apk_url]⟩ := by
  simp [process_apk, check_tools, hjava, hap, hsg, hjx, hurl, hdl]

/-- C10: when an uploaded file is supplied, it is used as the input and
no download is attempted, whatever the URL field says; the input error
is raised exactly when no file is uploaded and no URL is given. -/
theorem input_mode_precedence (env : Env) (apk_url : String)
    (opts : List String)
    (hjava : (env.run ["java", "--version"]).1 = true)
    (hap : env.apktoolExists = true) (hsg : env.signerExists = true)
    (hjx : env.jadxExists = true) :
    (∀ f, ∃ r : RunOut,
      process_apk env (some f) apk_url opts = Except.ok r ∧
      ("Processing uploaded file: " ++ f) ∈ r.logs ∧
      Event.makedirs (project_dir_of env f) ∈ r.events ∧
      ∀ u, Event.downloadUrl u ∉ r.events) ∧
    (apk_url = "" →
      process_apk env none apk_url opts =
        Except.error "Please upload an APK file or provide a URL.") ∧
    (apk_url ≠ "" → ∃ r : RunOut,
      process_apk env none apk_url opts = Except.ok r) := by
  refine ⟨?_, ?_, ?_⟩
  · intro f
    rw [process_apk_upload env f apk_url opts hjava hap hsg hjx]
    obtain ⟨l, e, hl, he, hee⟩ := decode_phase_shape env f opts
      ["--- Tool Check ---\n" ++ (check_tools env).2.1,
       "Processing uploaded file: " ++ f]
      [Event.runTool ["java", "--version"]]
    refine ⟨_, rfl, ?_, ?_, ?_⟩
    · rw [hl]
      exact List.mem_append_left _ (by simp)
    · rw [he]
      exact List.mem_append_right _ (by simp)
    · intro u hx
      rw [he] at hx
      rcases List.mem_append.mp hx with hx | hx
      · simp at hx
      · simp only [List.mem_cons] at hx
        rcases hx with hx | hx | hx
       -- constructor mismatches
        · simp at hx
        · simp at hx
        · rcases hee _ hx with h | h | h | h | h <;> simp at h
  · intro hurl
    subst hurl
    simp [process_apk, check_tools, hjava, hap, hsg, hjx]
  · intro hurl
    cases hdl : env.download apk_url with
    | error e =>
      exact ⟨_, process_apk_url_dlfail env apk_url e opts hjava hap hsg hjx hurl hdl⟩
    | ok p =>
      exact ⟨_, process_apk_url env apk_url p opts hjava hap hsg hjx hurl hdl⟩

/-- Closed instance of `input_mode_precedence`: an uploaded file wins
over a non-empty URL, and the no-input case raises the input error. -/
theorem input_mode_precedence_witness :
    (∃ r : RunOut,
      process_apk envAllOk (some "sample.apk") "http://x/y.apk" [] = Except.ok r ∧
      ("Processing uploaded file: " ++ "sample.apk") ∈ r.logs ∧
      Event.makedirs (project_dir_of envAllOk "sample.apk") ∈ r.events ∧
      Event.downloadUrl "http://x/y.apk" ∉ r.events) ∧
    process_apk envAllOk none "" [] =
      Except.error "Please upload an APK file or provide a URL." := by
  obtain ⟨hfile, hempty, _⟩ :=
    input_mode_precedence envAllOk "http://x/y.apk" []
      (by decide) (by decide) (by decide) (by decide)
  obtain ⟨r, hr, h1, h2, h3⟩ := hfile "sample.apk"
  obtain ⟨_, hempty2, _⟩ :=
    input_mode_precedence envAllOk "" []
      (by decide) (by decide) (by decide) (by decide)
  exact ⟨⟨r, hr, h1, h2, h3 _⟩, hempty2 rfl⟩

/-- C4: a rebuild invocation with the project archive, the keystore
file, or any of the three credential strings absent/empty raises the
input error.  In the model a raised `gr.Error` is an `Except.error`
return produced before any event is recorded: no directory is created,
no archive is unpacked and no external tool is invoked. -/
theorem missing_credentials_rejected (env : Env) :
    (∀ (bopts : List String) (ks : Option String) (ksp ka kk : String),
      rebuild_and_sign_apk env none bopts ks ksp ka kk =
        Except.error "Please upload a project ZIP file.") ∧
    (∀ (pz : String) (bopts : List String) (ksp ka kk : String),
      rebuild_and_sign_apk env (some pz) bopts none ksp ka kk =
        Except.error "Please upload a keystore file.") ∧
    (∀ (pz : String) (bopts : List String) (ks ksp ka kk : String),
      (ksp = "" ∨ ka = "" ∨ kk = "") →
      rebuild_and_sign_apk env (some pz) bopts (some ks) ksp ka kk =
        Except.error "Please provide all keystore credentials.") := by
  refine ⟨fun _ _ _ _ _ => rfl, fun _ _ _ _ _ => rfl, ?_⟩
  intro pz bopts ks ksp ka kk h
  simp only [rebuild_and_sign_apk]
  rw [if_pos h]

/-- Closed instance of `missing_credentials_rejected` for each of the
three rejection reasons. -/
theorem missing_credentials_rejected_witness :
    rebuild_and_sign_apk envAllOk none [] (some "k.jks") "a" "b" "c" =
      Except.error "Please upload a project ZIP file." ∧
    rebuild_and_sign_apk envAllOk (some "p.zip") [] none "a" "b" "c" =
      Except.error "Please upload a keystore file." ∧
    rebuild_and_sign_apk envAllOk (some "p.zip") [] (some "k.jks") "" "b" "c" =
      Except.error "Please provide all keystore credentials." := by
  obtain ⟨h1, h2, h3⟩ := missing_credentials_rejected envAllOk
  exact ⟨h1 [] (some "k.jks") "a" "b" "c", h2 "p.zip" [] "a" "b" "c",
    h3 "p.zip" [] "k.jks" "" "b" "c" (Or.inl rfl)⟩

/-! ## Helper lemmas: the rebuild pipeline -/

/-- Normal form of a rebuild run whose apktool build fails: both working
directories are removed and the failure status returned. -/
theorem rebuild_build_fail (env : Env) (pz ks ksp ka kk : String)
    (bopts : List String)
    (hcred : ¬(ksp = "" ∨ ka = "" ∨ kk = ""))
    (hb : (env.run (build_cmd_of env bopts)).1 = false) :
    rebuild_and_sign_apk env (some pz) bopts (some ks) ksp ka kk =
      Except.ok ⟨"Apktool rebuild failed.", none,
        ["Project unzipped to " ++ rebuild_project_dir env,
         "\n--- Apktool Rebuild ---\nRunning with options: " ++
           String.intercalate " " (parse_build_opts bopts),
         "Apktool STDOUT:\n" ++ (env.run (build_cmd_of env bopts)).2.1,
         "Apktool STDERR:\n" ++ (env.run (build_cmd_of env bopts)).2.2],
        [Event.makedirs (rebuild_project_dir env),
         Event.makedirs (rebuild_output_dir env),
         Event.extractZip pz (rebuild_project_dir env),
         Event.runTool (build_cmd_of env bopts),
         Event.rmtree (rebuild_project_dir env),
         Event.rmtree (rebuild_output_dir env)]⟩ := by
  simp only [rebuild_and_sign_apk]
  rw [if_neg hcred]
  simp [hb]

/-- Normal form of a rebuild run whose build succeeds but whose signing
fails: both working directories are removed and the failure status
returned. -/
theorem rebuild_sign_fail (env : Env) (pz ks ksp ka kk : String)
    (bopts : List String)
    (hcred : ¬(ksp = "" ∨ ka = "" ∨ kk = ""))
    (hb : (env.run (build_cmd_of env bopts)).1 = true)
    (hs : (env.run (sign_cmd_of env ks ksp ka kk)).1 = false) :
    rebuild_and_sign_apk env (some pz) bopts (some ks) ksp ka kk =
      Except.ok ⟨"Signing failed.", none,
        ["Project unzipped to " ++ rebuild_project_dir env,
         "\n--- Apktool Rebuild ---\nRunning with options: " ++
           String.intercalate " " (parse_build_opts bopts),
         "Apktool STDOUT:\n" ++ (env.run (build_cmd_of env bopts)).2.1,
         "Apktool STDERR:\n" ++ (env.run (build_cmd_of env bopts)).2.2,
         "\n--- Signing APK ---",
         "Signer STDOUT:\n" ++ (env.run (sign_cmd_of env ks ksp ka kk)).2.1,
         "Signer STDERR:\n" ++ (env.run (sign_cmd_of env ks ksp ka kk)).2.2],
        [Event.makedirs (rebuild_project_dir env),
         Event.makedirs (rebuild_output_dir env),
         Event.extractZip pz (rebuild_project_dir env),
         Event.runTool (build_cmd_of env bopts),
         Event.runTool (sign_cmd_of env ks ksp ka kk),
         Event.rmtree (rebuild_project_dir env),
         Event.rmtree (rebuild_output_dir env)]⟩ := by
  simp only [rebuild_and_sign_apk]
  rw [if_neg hcred]
  simp [hb, hs]

/-- Normal form of a fully successful rebuild run: build, sign, move the
signed artifact to its stable name, remove both working directories. -/
theorem rebuild_success (env : Env) (pz ks ksp ka kk : String)
    (bopts : List String)
    (hcred : ¬(ksp = "" ∨ ka = "" ∨ kk = ""))
    (hb : (env.run (build_cmd_of env bopts)).1 = true)
    (hs : (env.run (sign_cmd_of env ks ksp ka kk)).1 = true) :
    rebuild_and_sign_apk env (some pz) bopts (some ks) ksp ka kk =
      Except.ok ⟨"Success! APK rebuilt and signed.",
        some (final_apk_of pz),
        ["Project unzipped to " ++ rebuild_project_dir env,
         "\n--- Apktool Rebuild ---\nRunning with options: " ++
           String.intercalate " " (parse_build_opts bopts),
         "Apktool STDOUT:\n" ++ (env.run (build_cmd_of env bopts)).2.1,
         "Apktool STDERR:\n" ++ (env.run (build_cmd_of env bopts)).2.2,
         "\n--- Signing APK ---",
         "Signer STDOUT:\n" ++ (env.run (sign_cmd_of env ks ksp ka kk)).2.1,
         "Signer STDERR:\n" ++ (env.run (sign_cmd_of env ks ksp ka kk)).2.2],
        [Event.makedirs (rebuild_project_dir env),
         Event.makedirs (rebuild_output_dir env),
         Event.extractZip pz (rebuild_project_dir env),
         Event.runTool (build_cmd_of env bopts),
         Event.runTool (sign_cmd_of env ks ksp ka kk),
         Event.moveFile (signed_apk_of env) (final_apk_of pz),
         Event.rmtree (rebuild_project_dir env),
         Event.rmtree (rebuild_output_dir env)]⟩ := by
  simp only [rebuild_and_sign_apk]
  rw [if_neg hcred]
  simp [hb, hs]

/-! ## Helper lemmas: strings and path stems -/

theorem string_append_left_cancel (a b c : String) (h : a ++ b = a ++ c) :
    b = c := by
  have hd := congrArg String.data h
  simp only [String.data_append] at hd
  exact String.ext (List.append_cancel_left hd)

theorem splitOnChar_ne_nil (sep : Char) (cs : List Char) :
    splitOnChar sep cs ≠ [] := by
  cases cs with
  | nil => simp [splitOnChar]
  | cons c t =>
    simp only [splitOnChar]
    by_cases h : c = sep
    · simp [h]
    · simp only [h, if_false]
      cases splitOnChar sep t <;> simp

theorem splitOnChar_length_of_mem (sep : Char) (cs : List Char)
    (h : sep ∈ cs) : 2 ≤ (splitOnChar sep cs).length := by
  induction cs with
  | nil => simp at h
  | cons c t ih =>
    simp only [splitOnChar]
    by_cases hc : c = sep
    · simp only [hc, if_true]
      have := splitOnChar_ne_nil sep t
      cases hsp : splitOnChar sep t with
      | nil => exact absurd hsp this
      | cons a l => simp
    · have ht : sep ∈ t := by
        rcases List.mem_cons.mp h with h1 | h1
        · exact absurd h1.symm hc
        · exact h1
      have h2 := ih ht
      simp only [hc, if_false]
      cases hsp : splitOnChar sep t with
      | nil => exact absurd hsp (splitOnChar_ne_nil sep t)
      | cons a l =>
        rw [hsp] at h2
        simpa using h2

theorem splitOnChar_getLast?_append (sep : Char) (xs ys : List Char) :
    (splitOnChar sep (xs ++ sep :: ys)).getLast? =
      (splitOnChar sep ys).getLast? := by
  induction xs with
  | nil =>
    simp only [List.nil_append, splitOnChar, if_pos rfl]
    cases hsp : splitOnChar sep ys with
    | nil => exact absurd hsp (splitOnChar_ne_nil sep ys)
    | cons a l => simp [List.getLast?_cons_cons]
  | cons c xs ih =>
    simp only [List.cons_append, splitOnChar]
    by_cases hc : c = sep
    · simp only [hc, if_true]
      cases hsp : splitOnChar sep (xs ++ sep :: ys) with
      | nil => exact absurd hsp (splitOnChar_ne_nil sep _)
      | cons a l =>
        rw [List.getLast?_cons_cons, ← hsp, ih]
    · simp only [hc, if_false]
      have hlen := splitOnChar_length_of_mem sep (xs ++ sep :: ys)
        (by simp)
      cases hsp : splitOnChar sep (xs ++ sep :: ys) with
      | nil => exact absurd hsp (splitOnChar_ne_nil sep _)
      | cons a l =>
        rw [hsp] at hlen
        cases l with
        | nil => simp at hlen
        | cons b l2 =>
          rw [List.getLast?_cons_cons, ← ih, hsp, List.getLast?_cons_cons]

theorem splitOnChar_of_not_mem (sep : Char) (cs : List Char)
    (h : sep ∉ cs) : splitOnChar sep cs = [cs] := by
  induction cs with
  | nil => rfl
  | cons c t ih =>
    simp only [List.mem_cons, not_or] at h
    have hne : ¬ c = sep := fun hc => h.1 (hc ▸ rfl)
    simp only [splitOnChar, hne, if_false, ih h.2]

/-- The last path component of any string extended with
`"/rebuilt-unsigned.apk"`. -/
theorem lastComponent_slash_rebuilt (pre : String) :
    lastComponent (pre ++ "/rebuilt-unsigned.apk") = "rebuilt-unsigned.apk" := by
  unfold lastComponent
  rw [String.data_append]
  have h1 : ("/rebuilt-unsigned.apk" : String).data =
      '/' :: ("rebuilt-unsigned.apk" : String).data := rfl
  rw [h1, List.getLastD_eq_getLast?, splitOnChar_getLast?_append,
    splitOnChar_of_not_mem '/' _ (by decide)]
  rfl

/-- The stem the signer convention is applied to is always
`rebuilt-unsigned`, whatever the output directory is. -/
theorem stem_slash_rebuilt (pre : String) :
    stem (pre ++ "/rebuilt-unsigned.apk") = "rebuilt-unsigned" := by
  unfold stem
  rw [lastComponent_slash_rebuilt]
  decide

/-- C8: a rebuild run on archive `sample-decompiled.zip` with options
`{use_aapt2}` invokes the builder as
`java -jar apktool.jar b <project> -o <out>/rebuilt-unsigned.apk
--use-aapt2`; on success the signer is invoked on that file, the
signer's output name is the unsigned file's stem with
`-aligned-signed.apk` appended, and the final artifact delivered to the
caller is `downloads/sample-decompiled-signed.apk`. -/
theorem rebuild_scenario_sample (env : Env) (ks ksp ka kk : String)
    (hksp : ksp ≠ "") (hka : ka ≠ "") (hkk : kk ≠ "")
    (hb : (env.run (build_cmd_of env ["use_aapt2"])).1 = true)
    (hs : (env.run (sign_cmd_of env ks ksp ka kk)).1 = true) :
    ∃ r : RunOut,
      rebuild_and_sign_apk env (some "sample-decompiled.zip") ["use_aapt2"]
        (some ks) ksp ka kk = Except.ok r ∧
      build_cmd_of env ["use_aapt2"] =
        ["java", "-jar", "tools/apktool.jar", "b", rebuild_project_dir env,
         "-o", rebuild_output_dir env ++ "/rebuilt-unsigned.apk", "--use-aapt2"] ∧
      Event.runTool (build_cmd_of env ["use_aapt2"]) ∈ r.events ∧
      sign_cmd_of env ks ksp ka kk =
        ["java", "-jar", "tools/uber-apk-signer.jar", "--apks",
         rebuild_output_dir env ++ "/rebuilt-unsigned.apk", "--ks", ks,
         "--ksPass", ksp, "--ksAlias", ka, "--keyPass", kk] ∧
      Event.runTool (sign_cmd_of env ks ksp ka kk) ∈ r.events ∧
      signed_apk_of env =
        rebuild_output_dir env ++ "/" ++ "rebuilt-unsigned" ++ "-aligned-signed.apk" ∧
      Event.moveFile (signed_apk_of env)
        "downloads/sample-decompiled-signed.apk" ∈ r.events ∧
      r.download = some "downloads/sample-decompiled-signed.apk" := by
  have hcred : ¬(ksp = "" ∨ ka = "" ∨ kk = "") := by simp [hksp, hka, hkk]
  have hfinal : final_apk_of "sample-decompiled.zip" =
      "downloads/sample-decompiled-signed.apk" := by decide
  have hpb : parse_build_opts ["use_aapt2"] = ["--use-aapt2"] := by decide
  rw [rebuild_success env "sample-decompiled.zip" ks ksp ka kk ["use_aapt2"]
    hcred hb hs]
  refine ⟨_, rfl, ?_, ?_, ?_, ?_, ?_, ?_, ?_⟩
  · simp [build_cmd_of, apktool_build_cmd, APKTOOL_PATH, unsigned_apk_of, hpb]
  · simp
  · simp [sign_cmd_of, sign_apk_cmd, SIGNER_PATH, unsigned_apk_of]
  · simp
  · simp [signed_apk_of, unsigned_apk_of, stem_slash_rebuilt]
  · rw [← hfinal]
    simp
  · rw [← hfinal]

/-- Closed instance of `rebuild_scenario_sample` on a concrete
environment. -/
theorem rebuild_scenario_sample_witness :
    ∃ r : RunOut,
      rebuild_and_sign_apk envAllOk (some "sample-decompiled.zip") ["use_aapt2"]
        (some "k.jks") "pw" "alias" "kpw" = Except.ok r ∧
      build_cmd_of envAllOk ["use_aapt2"] =
        ["java", "-jar", "tools/apktool.jar", "b", rebuild_project_dir envAllOk,
         "-o", rebuild_output_dir envAllOk ++ "/rebuilt-unsigned.apk",
         "--use-aapt2"] ∧
      Event.runTool (build_cmd_of envAllOk ["use_aapt2"]) ∈ r.events ∧
      sign_cmd_of envAllOk "k.jks" "pw" "alias" "kpw" =
        ["java", "-jar", "tools/uber-apk-signer.jar", "--apks",
         rebuild_output_dir envAllOk ++ "/rebuilt-unsigned.apk", "--ks", "k.jks",
         "--ksPass", "pw", "--ksAlias", "alias", "--keyPass", "kpw"] ∧
      Event.runTool (sign_cmd_of envAllOk "k.jks" "pw" "alias" "kpw") ∈ r.events ∧
      signed_apk_of envAllOk =
        rebuild_output_dir envAllOk ++ "/" ++ "rebuilt-unsigned" ++
          "-aligned-signed.apk" ∧
      Event.moveFile (signed_apk_of envAllOk)
        "downloads/sample-decompiled-signed.apk" ∈ r.events ∧
      r.download = some "downloads/sample-decompiled-signed.apk" :=
  rebuild_scenario_sample envAllOk "k.jks" "pw" "alias" "kpw"
    (by decide) (by decide) (by decide) (by decide) (by decide)

/-- C6 counterexample: a decode-pipeline run whose required decode fails
fatally creates its working directory but never removes it — the claim
that the directory is removed when the run fails fatally is false on the
code (`process_apk` returns at the `Apktool failed.` branch without any
`shutil.rmtree`). -/
theorem working_directory_counterexample :
    ∃ r : RunOut,
      process_apk envDecodeFail (some "sample.apk") "" [] = Except.ok r ∧
      r.status = "Apktool failed." ∧
      Event.makedirs (project_dir_of envDecodeFail "sample.apk") ∈ r.events ∧
      Event.rmtree (project_dir_of envDecodeFail "sample.apk") ∉ r.events := by
  rw [process_apk_upload envDecodeFail "sample.apk" "" []
      (by decide) (by decide) (by decide) (by decide),
    decode_phase_fail envDecodeFail "sample.apk" [] _ _ (by decide)]
  exact ⟨_, rfl, rfl, by simp, by simp⟩

/-- C6 (amended): every working/output directory of a pipeline run has a
name containing the run's random suffix, so distinct suffixes give
distinct directories; the decode pipeline removes its working directory
when it produces its artifact but leaves it behind on a fatal decode
failure; the rebuild pipeline removes both of its directories in every
completed run (success, build failure and sign failure alike). -/
theorem working_directory_lifecycle (env env2 : Env) (apk_file : Option String)
    (apk_url p : String) (opts bopts : List String) (pz ks ksp ka kk : String)
    (hjava : (env.run ["java", "--version"]).1 = true)
    (hap : env.apktoolExists = true) (hsg : env.signerExists = true)
    (hjx : env.jadxExists = true)
    (hacq : apk_file = some p ∨
      (apk_file = none ∧ apk_url ≠ "" ∧ env.download apk_url = Except.ok p))
    (hcred : ¬(ksp = "" ∨ ka = "" ∨ kk = "")) :
    (env.uuid1 ≠ env2.uuid1 →
      project_dir_of env p ≠ project_dir_of env2 p) ∧
    (env.uuid1 ≠ env2.uuid1 →
      rebuild_project_dir env ≠ rebuild_project_dir env2) ∧
    (env.uuid2 ≠ env2.uuid2 →
      rebuild_output_dir env ≠ rebuild_output_dir env2) ∧
    ((env.run (decode_cmd_of env p opts)).1 = true →
      ∃ r : RunOut, process_apk env apk_file apk_url opts = Except.ok r ∧
        Event.makedirs (project_dir_of env p) ∈ r.events ∧
        Event.rmtree (project_dir_of env p) ∈ r.events) ∧
    ((env.run (decode_cmd_of env p opts)).1 = false →
      ∃ r : RunOut, process_apk env apk_file apk_url opts = Except.ok r ∧
        r.status = "Apktool failed." ∧
        Event.makedirs (project_dir_of env p) ∈ r.events ∧
        Event.rmtree (project_dir_of env p) ∉ r.events) ∧
    (∀ r : RunOut,
      rebuild_and_sign_apk env (some pz) bopts (some ks) ksp ka kk =
        Except.ok r →
      Event.rmtree (rebuild_project_dir env) ∈ r.events ∧
      Event.rmtree (rebuild_output_dir env) ∈ r.events) := by
  refine ⟨?_, ?_, ?_, ?_, ?_, ?_⟩
  · intro hne heq
    exact hne (string_append_left_cancel _ _ _ heq)
  · intro hne heq
    exact hne (string_append_left_cancel _ _ _ heq)
  · intro hne heq
    exact hne (string_append_left_cancel _ _ _ heq)
  · intro hok
    obtain ⟨-, -, -, h4, -, -, -⟩ :=
      decode_phase_success_props env p opts
        ["--- Tool Check ---\n" ++ (check_tools env).2.1,
         "Processing uploaded file: " ++ p]
        [Event.runTool ["java", "--version"]] hok
    obtain ⟨-, -, -, h4u, -, -, -⟩ :=
      decode_phase_success_props env p opts
        ["--- Tool Check ---\n" ++ (check_tools env).2.1,
         "Downloading APK from URL: " ++ apk_url,
         "APK downloaded to: " ++ p]
        [Event.runTool ["java", "--version"], Event.downloadUrl apk_url] hok
    rcases hacq with rfl | ⟨rfl, hurl, hdl⟩
    · rw [process_apk_upload env p apk_url opts hjava hap hsg hjx]
      obtain ⟨l, e, -, he, -⟩ := decode_phase_shape env p opts
        ["--- Tool Check ---\n" ++ (check_tools env).2.1,
         "Processing uploaded file: " ++ p]
        [Event.runTool ["java", "--version"]]
      refine ⟨_, rfl, ?_, h4⟩
      rw [he]
      exact List.mem_append_right _ (by simp)
    · rw [process_apk_url env apk_url p opts hjava hap hsg hjx hurl hdl]
      obtain ⟨l, e, -, he, -⟩ := decode_phase_shape env p opts
        ["--- Tool Check ---\n" ++ (check_tools env).2.1,
         "Downloading APK from URL: " ++ apk_url,
         "APK downloaded to: " ++ p]
        [Event.runTool ["java", "--version"], Event.downloadUrl apk_url]
      refine ⟨_, rfl, ?_, h4u⟩
      rw [he]
      exact List.mem_append_right _ (by simp)
  · intro hfail
    rcases hacq with rfl | ⟨rfl, hurl, hdl⟩
    · rw [process_apk_upload env p apk_url opts hjava hap hsg hjx,
        decode_phase_fail env p opts _ _ hfail]
      exact ⟨_, rfl, rfl, by simp, by simp⟩
    · rw [process_apk_url env apk_url p opts hjava hap hsg hjx hurl hdl,
        decode_phase_fail env p opts _ _ hfail]
      exact ⟨_, rfl, rfl, by simp, by simp⟩
  · intro r hr
    cases hbb : (env.run (build_cmd_of env bopts)).1 with
    | false =>
      rw [rebuild_build_fail env pz ks ksp ka kk bopts hcred hbb] at hr
      simp only [Except.ok.injEq] at hr
      subst hr
      constructor <;> simp
    | true =>
      cases hss : (env.run (sign_cmd_of env ks ksp ka kk)).1 with
      | false =>
        rw [rebuild_sign_fail env pz ks ksp ka kk bopts hcred hbb hss] at hr
        simp only [Except.ok.injEq] at hr
        subst hr
        constructor <;> simp
      | true =>
        rw [rebuild_success env pz ks ksp ka kk bopts hcred hbb hss] at hr
        simp only [Except.ok.injEq] at hr
        subst hr
        constructor <;> simp

/-- Closed instance of `working_directory_lifecycle`: distinct suffixes
give distinct directories, a successful run removes its directory, a
fatally failed decode run does not, and a completed rebuild removes
both. -/
theorem working_directory_lifecycle_witness :
    project_dir_of envAllOk "sample.apk" ≠ project_dir_of envAllOk2 "sample.apk" ∧
    (∃ r : RunOut,
      process_apk envAllOk (some "sample.apk") "" [] = Except.ok r ∧
      Event.makedirs (project_dir_of envAllOk "sample.apk") ∈ r.events ∧
      Event.rmtree (project_dir_of envAllOk "sample.apk") ∈ r.events) ∧
    (∃ r : RunOut,
      process_apk envDecodeFail (some "sample.apk") "" [] = Except.ok r ∧
      r.status = "Apktool failed." ∧
      Event.makedirs (project_dir_of envDecodeFail "sample.apk") ∈ r.events ∧
      Event.rmtree (project_dir_of envDecodeFail "sample.apk") ∉ r.events) := by
  obtain ⟨hu, -, -, hsucc, -, -⟩ :=
    working_directory_lifecycle envAllOk envAllOk2 (some "sample.apk") ""
      "sample.apk" [] [] "p.zip" "k.jks" "a" "b" "c"
      (by decide) (by decide) (by decide) (by decide) (Or.inl rfl) (by simp)
  obtain ⟨-, -, -, -, hfailc, -⟩ :=
    working_directory_lifecycle envDecodeFail envAllOk2 (some "sample.apk") ""
      "sample.apk" [] [] "p.zip" "k.jks" "a" "b" "c"
      (by decide) (by decide) (by decide) (by decide) (Or.inl rfl) (by simp)
  exact ⟨hu (by decide), hsucc (by decide), hfailc (by decide)⟩

end Apklab
